import Mathlib

/-!
Shallow embedding of `src/lib/utils/excel-processor.ts` (excel-processor repository).

Grids are lists of rows of cells; a cell is a text or numeric spreadsheet value
(the codec in `src/lib/utils/excel.ts` only ever produces strings and numbers,
empty cells becoming `""`).  JavaScript numbers are modelled as rationals, so
`Math.round(x*100)/100` becomes exact rational rounding; the binary64
representation is abstracted away.  JavaScript `undefined` is modelled by the
`Cell.undef` constructor where it can be stored into a record, and by `Option`
where it only arises from out-of-range indexing.
-/

namespace ExcelProcessor

attribute [local semireducible] Rat.add Rat.mul Rat.inv Rat.sub

/-! ## JavaScript string primitives -/

/-- The character class of the JavaScript `\s` regex (the members reachable here). -/
def isJsWsChar (c : Char) : Bool :=
  c.toNat = 9 ∨ c.toNat = 10 ∨ c.toNat = 11 ∨ c.toNat = 12 ∨ c.toNat = 13 ∨
    c.toNat = 32 ∨ c.toNat = 160

/-- JavaScript `String.prototype.trim`. -/
def jsTrim (s : String) : String :=
  ⟨((s.data.dropWhile isJsWsChar).reverse.dropWhile isJsWsChar).reverse⟩

/-- JavaScript `String.prototype.toLowerCase` (ASCII case folding; every header
constant in the source is already lowercase outside ASCII letters). -/
def jsToLower (s : String) : String :=
  ⟨s.data.map Char.toLower⟩

/-- JavaScript `String.prototype.toUpperCase` (ASCII case folding). -/
def jsToUpper (s : String) : String :=
  ⟨s.data.map Char.toUpper⟩

/-- `charsLead pat s`: `pat` is a leading segment of `s`. -/
def charsLead : List Char → List Char → Bool
  | [], _ => true
  | _ :: _, [] => false
  | c :: p, d :: s => c == d && charsLead p s

/-- `charsWithin pat s`: `pat` occurs contiguously inside `s`. -/
def charsWithin : List Char → List Char → Bool
  | pat, [] => pat.isEmpty
  | pat, d :: s => charsLead pat (d :: s) || charsWithin pat s

/-- JavaScript `s.includes(sub)`. -/
def strIncludes (s sub : String) : Bool :=
  charsWithin sub.data s.data

/-- JavaScript `s.split(' ')[0]`. -/
def firstWord (s : String) : String :=
  ⟨s.data.takeWhile (fun c => ¬ c = ' ')⟩

/-! ## Cells, rows, grids, records -/

/-- A spreadsheet cell value (`string | number` in the source), together with
`undef` for the JavaScript `undefined` that `listaPrecios[0].Codigo` can
produce when the price-list sheet has no literal `Codigo` header. -/
inductive Cell where
  | str (s : String)
  | num (q : Rat)
  | undef
deriving DecidableEq, Repr

/-- JavaScript truthiness for the values a cell can hold. -/
def Cell.truthy : Cell → Bool
  | .str s => ¬ s = ""
  | .num q => ¬ q = 0
  | .undef => false

/-- JavaScript `String(v)` for the values a cell can hold.  Integral rationals
print like JavaScript integers; non-integral ones differ in notation only, and
no claim below stringifies a non-integral number. -/
def cellToStr : Cell → String
  | .str s => s
  | .num q => toString q
  | .undef => "undefined"

/-- JavaScript `x ?? d` (nullish coalescing) applied to a possibly absent cell. -/
def nullishD (o : Option Cell) (d : Cell) : Cell :=
  match o with
  | none => d
  | some .undef => d
  | some c => c

/-- JavaScript `String(v || '')`. -/
def jsStringOrEmpty (c : Cell) : String :=
  if c.truthy then cellToStr c else ""

/-- A row of a worksheet grid. -/
abbrev Row := List Cell

/-- A worksheet grid: row 0 is the header row. -/
abbrev Grid := List Row

/-- A processed record: a JavaScript object keyed by header text,
in first-assignment key order. -/
abbrev Record := List (String × Cell)

/-- JavaScript property assignment `r[k] = v`: overwrite in place if the key
exists, else append. -/
def setKey : Record → String → Cell → Record
  | [], k, v => [(k, v)]
  | (k', v') :: rest, k, v =>
    if k' = k then (k, v) :: rest else (k', v') :: setKey rest k v

/-- JavaScript property read `r[k]` (`none` when the key is absent). -/
def getKey (r : Record) (k : String) : Option Cell :=
  (r.find? (fun p => p.1 = k)).map (fun p => p.2)

/-- JavaScript `arr.splice(i, 0, a)`: insert at index `i` (clamped to the end). -/
def insertAt (l : List α) (i : Nat) (a : α) : List α :=
  l.take i ++ a :: l.drop i

/-- Index-carrying enumeration, mirroring `forEach((x, index) => ...)`. -/
def enumFrom (n : Nat) : List α → List (Nat × α)
  | [] => []
  | a :: t => (n, a) :: enumFrom (n + 1) t

/-- `arr.map((x, index) => f index x)`. -/
def mapWithIndex (f : Nat → α → β) (l : List α) : List β :=
  (enumFrom 0 l).map (fun p => f p.1 p.2)

/-! ## Numeric/Text Normalizer (`parseNumericValue`) -/

/-- JavaScript `Math.round` (half-up, toward positive infinity). -/
def jsRound (q : Rat) : Int :=
  (q + 1/2).floor

/-- `Math.round(q * 100) / 100`: round to 2 decimal places. -/
def round2 (q : Rat) : Rat :=
  (jsRound (q * 100) : Rat) / 100

/-- Digit run folded to a natural number. -/
def digitsToNat (ds : List Char) : Nat :=
  ds.foldl (fun n c => 10 * n + (c.toNat - 48)) 0

/-- Strip an optional sign, returning the sign factor and the rest. -/
def splitSign : List Char → Int × List Char
  | '-' :: r => (-1, r)
  | '+' :: r => (1, r)
  | cs => (1, cs)

/-- Exponent part accepted by `parseFloat` after the mantissa: `e`/`E`,
optional sign, at least one digit; otherwise contributes 0 (the trailing
garbage is ignored). -/
def parseExpPart : List Char → Int
  | e :: r =>
    if e = 'e' ∨ e = 'E' then
      let (sg, r') := splitSign r
      let ds := r'.takeWhile Char.isDigit
      if ds.isEmpty then 0 else sg * (digitsToNat ds : Int)
    else 0
  | [] => 0

/-- JavaScript `parseFloat`: parse the longest numeric prefix; `none` models
`NaN`.  (The special literal `Infinity` cannot be represented in the rational
model and is not produced by any input considered here.) -/
def jsParseFloat (s : String) : Option Rat :=
  let cs := s.data.dropWhile isJsWsChar
  let (sg, cs1) := splitSign cs
  let intDigits := cs1.takeWhile Char.isDigit
  let afterInt := cs1.drop intDigits.length
  let fracDigits :=
    match afterInt with
    | '.' :: r => r.takeWhile Char.isDigit
    | _ => []
  let afterFrac :=
    match afterInt with
    | '.' :: r => r.drop fracDigits.length
    | _ => afterInt
  if intDigits.isEmpty ∧ fracDigits.isEmpty then none
  else
    let mant : Rat :=
      (sg : Rat) * (digitsToNat (intDigits ++ fracDigits) : Rat) /
        ((10 : Rat) ^ fracDigits.length)
    let e := parseExpPart afterFrac
    some (if 0 ≤ e then mant * (10 : Rat) ^ e.toNat else mant / (10 : Rat) ^ (-e).toNat)

/-- The cleanup `parseNumericValue` applies to textual input:
`value.replace(/["'\s]/g, '')` followed by `replace(',', '.')` (the string
form of `replace` rewrites only the first comma). -/
def replaceFirstComma : List Char → List Char
  | [] => []
  | c :: rest => if c = ',' then '.' :: rest else c :: replaceFirstComma rest

/-- `/["'\s]/`: a double quote, a single quote (code point 39), or whitespace. -/
def isQuoteOrWs (c : Char) : Bool :=
  c.toNat = 34 ∨ c.toNat = 39 ∨ isJsWsChar c

def normalizeNumericText (s : String) : String :=
  ⟨replaceFirstComma (s.data.filter (fun c => ¬ isQuoteOrWs c))⟩

/-- `parseNumericValue` (excel-processor.ts lines 567-584). -/
def parseNumericValue : Cell → Rat
  | .num q => round2 q
  | .undef => 0
  | .str s =>
    match jsParseFloat (normalizeNumericText s) with
    | none => 0
    | some q => round2 q

/-! ## Condition-Code Mapper (`mapCondicionIvaToKey`) -/

/-- Modelled from the spec: the `condicionIva` dictionary is imported from
`src/lib/utils/index`, which is not part of the provided sources.  §4.2 of the
spec describes it as "a fixed dictionary of ~6 canonical condition labels →
numeric codes" in insertion order, whose labels include "Responsable
Inscripto" (the abbreviation example of §4.2) and, per the sample data,
"Monotributista"; the codes follow the standard Argentine condition-code
numbering. -/
def condicionIva : List (String × Rat) :=
  [("Responsable Inscripto", 1),
   ("Responsable No Inscripto", 2),
   ("No Responsable", 3),
   ("Exento", 4),
   ("Consumidor Final", 5),
   ("Monotributista", 6)]

/-- First loop of `mapCondicionIvaToKey`: case-insensitive exact match. -/
def findExactLoop : List (String × Rat) → String → Option Rat
  | [], _ => none
  | (k, v) :: rest, lowerText =>
    if jsToLower k = lowerText then some v else findExactLoop rest lowerText

/-- Second loop of `mapCondicionIvaToKey`: for each entry in order, a
substring match in either direction, then a first-word substring match in
either direction, before moving to the next entry. -/
def findPartialLoop : List (String × Rat) → String → Option Rat
  | [], _ => none
  | (k, v) :: rest, lowerText =>
    let keyLower := jsToLower k
    if strIncludes lowerText keyLower ∨ strIncludes keyLower lowerText then
      some v
    else
      let fw := firstWord keyLower
      if strIncludes lowerText fw ∨ strIncludes fw lowerText then some v
      else findPartialLoop rest lowerText

/-- `mapCondicionIvaToKey` (excel-processor.ts lines 590-620). -/
def mapCondicionIvaToKey (c : Cell) : Cell :=
  match c with
  | .num q => .num q
  | c =>
    let text := jsTrim (cellToStr c)
    if text = "" ∨ text = "SN" then .str text
    else
      let lowerText := jsToLower text
      match findExactLoop condicionIva lowerText with
      | some v => .num v
      | none =>
        match findPartialLoop condicionIva lowerText with
        | some v => .num v
        | none => .str text

/-! ## Required-column manifest and worksheet validation -/

def distribuidorRequired : List String :=
  ["Codigo", "Nombre", "CUIT", "Telefono", "Email", "Condicion Iva", "Persona Contacto"]

def listaPreciosRequired : List String :=
  ["Codigo", "Nombre"]

def listaPreciosTradicionalRequired : List String :=
  ["Codigo de Lista", "Código Producto Bimbo", "Nombre del Producto", "Marca",
   "Categoria del producto", "Precio Sin IVA", "% IVA", "Precio con IVA"]

def clientesRequired : List String :=
  ["Codigo", "Nombre", "Direccion", "Telefono", "Email", "CUIT", "Condicion Iva",
   "Persona Contacto", "Codigo Lista precios", "Visita Lunes", "Visita Martes",
   "Visita Miercoles", "Visita Jueves", "Visita Viernes", "Visita Sábado",
   "Visita Domingo"]

/-- `REQUIRED_COLUMNS`, in `Object.entries` order. -/
def requiredColumnsList : List (String × List String) :=
  [("DISTRIBUIDOR", distribuidorRequired),
   ("LISTA DE PRECIOS", listaPreciosRequired),
   ("LISTA DE PRECIOS TRADICIONAL", listaPreciosTradicionalRequired),
   ("CLIENTES", clientesRequired)]

/-- A decoded workbook: worksheet name to grid, in sheet order
(`Record<string, (string | number)[][]>`). -/
abbrev Workbook := List (String × Grid)

/-- `Object.keys(workbookData).find(k => k.toLowerCase() === name.toLowerCase())`. -/
def findWorksheetKey (wb : Workbook) (name : String) : Option String :=
  ((wb.map (fun p => p.1)).find? (fun k => jsToLower k = jsToLower name))

/-- Read the grid stored under an exact key. -/
def lookupKey (wb : Workbook) (k : String) : Option Grid :=
  (wb.find? (fun p => p.1 = k)).map (fun p => p.2)

/-- `updatedData[worksheetKey] = newData`: overwrite the first binding of the
key (append if absent, which never happens in the flows below). -/
def setWb : Workbook → String → Grid → Workbook
  | [], k, g => [(k, g)]
  | (k', g') :: rest, k, g =>
    if k' = k then (k, g) :: rest else (k', g') :: setWb rest k g

/-- `validateWorksheets` (excel-processor.ts lines 189-207). -/
def validateWorksheets (wb : Workbook) : List String :=
  let requiredSheets :=
    ["DISTRIBUIDOR", "LISTA DE PRECIOS", "LISTA DE PRECIOS TRADICIONAL", "CLIENTES"]
  let availableSheets := wb.map (fun p => jsToLower p.1)
  (requiredSheets.filter
    (fun s => ¬ availableSheets.any (fun k => k = jsToLower s))).map
      (fun s => "Falta la hoja: " ++ s)

/-! ## Column Schema Reconciler (`validateAndAddMissingColumns`) -/

structure ColumnValidationResult where
  sheetName : String
  missingColumns : List String
  addedColumns : List String
  existingColumns : List String
deriving DecidableEq, Repr

/-- The weak column-presence test: a required column counts as present when
some existing (trimmed, lowercased) header contains the required name's first
word, or the required name contains the existing header's first word. -/
def colFound (existingLower : List String) (requiredCol : String) : Bool :=
  let rl := jsToLower requiredCol
  existingLower.any (fun e => strIncludes e (firstWord rl) || strIncludes rl (firstWord e))

/-- The special positioning logic for an inserted column (default: append). -/
def insertIndexFor (sheetName missingCol : String) (newHeaders : List String) : Nat :=
  if sheetName = "DISTRIBUIDOR" ∧ missingCol = "CUIT" then
    match newHeaders.findIdx? (fun h => strIncludes (jsToLower h) "nombre") with
    | some i => i
    | none => newHeaders.length
  else if sheetName = "CLIENTES" ∧ missingCol = "Codigo Lista precios" then
    match newHeaders.findIdx?
        (fun h => strIncludes (jsToLower h) "visita" && strIncludes (jsToLower h) "lunes") with
    | some i => i
    | none => newHeaders.length
  else newHeaders.length

/-- The insertion loop over the missing columns: each step splices the column
name into the evolving header list and an empty string into every data row. -/
def addMissingCols (sheetName : String) :
    List String → List String × List Row → List String × List Row
  | [], st => st
  | c :: rest, (hs, rows) =>
    let idx := insertIndexFor sheetName c hs
    addMissingCols sheetName rest
      (insertAt hs idx c, rows.map (fun r => insertAt r idx (.str "")))

/-- One iteration of the `for (const [sheetName, requiredColumns] ...)` loop
body, acting on a single (non-empty) grid. -/
def reconcileSheet (sheetName : String) (required : List String) (grid : Grid) :
    Grid × ColumnValidationResult :=
  let existingHeaders := (grid.headD []).map (fun c => jsTrim (cellToStr c))
  let existingLower := existingHeaders.map jsToLower
  let missing := required.filter (fun c => ! colFound existingLower c)
  let existing := required.filter (fun c => colFound existingLower c)
  if missing = [] then
    (grid, ⟨sheetName, missing, [], existing⟩)
  else
    let st := addMissingCols sheetName missing (existingHeaders, grid.tail)
    ((st.1.map Cell.str) :: st.2, ⟨sheetName, missing, missing, existing⟩)

/-- One step of `validateAndAddMissingColumns`' sheet loop: the grid is read
from the ORIGINAL workbook (`workbookData`), the rewrite goes to the evolving
copy (`updatedData`). -/
def vamcStep (wb : Workbook) (acc : Workbook × List ColumnValidationResult)
    (entry : String × List String) : Workbook × List ColumnValidationResult :=
  match findWorksheetKey wb entry.1 with
  | none => acc
  | some key =>
    let grid := (lookupKey wb key).getD []
    if grid.length = 0 then acc
    else
      let r := reconcileSheet entry.1 entry.2 grid
      (if r.2.missingColumns = [] then acc.1 else setWb acc.1 key r.1,
       acc.2 ++ [r.2])

/-- `validateAndAddMissingColumns` (excel-processor.ts lines 212-301). -/
def validateAndAddMissingColumns (wb : Workbook) :
    Workbook × List ColumnValidationResult :=
  requiredColumnsList.foldl (vamcStep wb) (wb, [])

/-! ## Worksheet Rule Engine -/

/-- Shared shape of the per-row object-building loops
(`headers.forEach((header, index) => ... result[header] = value)`), with a
skip predicate for the Clientes loop's `if (colIndex === codigoIndex) return`. -/
def applyCols (skip : Nat → Bool) (f : Nat → String → Cell)
    (cols : List (Nat × String)) (r0 : Record) : Record :=
  cols.foldl (fun r p => if skip p.1 then r else setKey r p.2 (f p.1 p.2)) r0

/-- The cell value computed for one column of one Distribuidor row. -/
def distribuidorCell (row : Row) (emailIndex condicionIvaIndex cuitIndex nombreIndex :
    Option Nat) (transferredFromCuit : String) (index : Nat) (_header : String) : Cell :=
  let value := nullishD (row.get? index) (.str "SN")
  let value :=
    if some index = emailIndex then
      match value with
      | .str s => .str (jsToUpper s)
      | c => c
    else value
  let value :=
    if some index = condicionIvaIndex then mapCondicionIvaToKey value else value
  let value :=
    if some index = cuitIndex ∧ ¬ transferredFromCuit = "" then .str "SN" else value
  if some index = nombreIndex ∧ ¬ transferredFromCuit = "" then
    let currentNombre := jsTrim (jsStringOrEmpty value)
    if ¬ currentNombre = "" ∧ ¬ currentNombre = "SN" then
      .str (currentNombre ++ " - " ++ transferredFromCuit)
    else .str transferredFromCuit
  else value

/-- `processDistribuidorWorksheet` (excel-processor.ts lines 344-402). -/
def processDistribuidorWorksheet (data : Grid) : List Record :=
  if data.length ≤ 1 then []
  else
    let headers := (data.headD []).map cellToStr
    let emailIndex := headers.findIdx? (fun h => strIncludes (jsToLower h) "email")
    let condicionIvaIndex := headers.findIdx?
      (fun h => strIncludes (jsToLower h) "condicion" && strIncludes (jsToLower h) "iva")
    let cuitIndex := headers.findIdx? (fun h => strIncludes (jsToLower h) "cuit")
    let nombreIndex := headers.findIdx? (fun h => strIncludes (jsToLower h) "nombre")
    data.tail.map (fun row =>
      let transferredFromCuit :=
        match cuitIndex with
        | some ci =>
          match row.get? ci with
          | some (.str s) =>
            if ¬ s = "" ∧ ¬ s.data.any Char.isDigit then jsTrim s else ""
          | _ => ""
        | none => ""
      applyCols (fun _ => false)
        (distribuidorCell row emailIndex condicionIvaIndex cuitIndex nombreIndex
          transferredFromCuit)
        (enumFrom 0 headers) [])

/-- `processListaPreciosWorksheet` (excel-processor.ts lines 407-419). -/
def processListaPreciosWorksheet (data : Grid) : List Record :=
  if data.length ≤ 1 then []
  else
    let headers := (data.headD []).map cellToStr
    data.tail.map (fun row =>
      applyCols (fun _ => false)
        (fun index _ => nullishD (row.get? index) (.str "SN"))
        (enumFrom 0 headers) [])

/-- `result[headers[i]]` with a JavaScript out-of-range twist: when the index
search failed (`-1`), `headers[-1]` is `undefined` and the property key is the
string `"undefined"`. -/
def headerKeyAt (headers : List String) : Option Nat → String
  | some i => (headers.get? i).getD "undefined"
  | none => "undefined"

/-- Numeric coercion used by the price arithmetic.  Those operands are the
already-parsed numeric cells unless the sheet duplicates a relevant header
name, so the string/undef cases (NaN arithmetic in JavaScript, unreachable in
every flow below) collapse to 0. -/
def cellNum : Cell → Rat
  | .num q => q
  | _ => 0

def truthyO (o : Option Cell) : Bool :=
  match o with
  | some c => c.truthy
  | none => false

/-- `processListaPreciosTradicionalWorksheet` (excel-processor.ts lines
425-469).  The unused `_codigoProductoIndex`, `_marcaIndex` and
`_categoriaIndex` bindings of the source are dead and omitted.  Note that
`ivaIndex` searches for a header containing `'% iva'` OR `'iva'`, so with the
canonical header order it resolves to the `Precio Sin IVA` column. -/
def processListaPreciosTradicionalWorksheet (data : Grid) : List Record :=
  if data.length ≤ 1 then []
  else
    let headers := (data.headD []).map cellToStr
    let precioSinIvaIndex := headers.findIdx?
      (fun h => strIncludes (jsToLower h) "precio sin iva")
    let ivaIndex := headers.findIdx?
      (fun h => strIncludes (jsToLower h) "% iva" || strIncludes (jsToLower h) "iva")
    let precioConIvaIndex := headers.findIdx?
      (fun h => strIncludes (jsToLower h) "precio con iva")
    data.tail.map (fun row =>
      let result := applyCols (fun _ => false)
        (fun index _ =>
          let value := nullishD (row.get? index) (.str "SN")
          if some index = precioSinIvaIndex ∨ some index = precioConIvaIndex ∨
              some index = ivaIndex then
            .num (parseNumericValue value)
          else value)
        (enumFrom 0 headers) []
      let sinKey := headerKeyAt headers precioSinIvaIndex
      let conKey := headerKeyAt headers precioConIvaIndex
      let ivaKey := headerKeyAt headers ivaIndex
      let precioSinIva := getKey result sinKey
      let precioConIva := getKey result conKey
      let iva : Rat :=
        if truthyO (getKey result ivaKey) then cellNum ((getKey result ivaKey).getD .undef)
        else 21
      let result :=
        if truthyO precioConIva ∧
            (¬ truthyO precioSinIva ∨ precioSinIva = some (.str "SN")) then
          setKey result sinKey
            (.num (round2 (cellNum (precioConIva.getD .undef) / (1 + iva / 100))))
        else result
      if truthyO precioSinIva ∧
          (¬ truthyO precioConIva ∨ precioConIva = some (.str "SN")) then
        setKey result conKey
          (.num (round2 (cellNum (precioSinIva.getD .undef) * (1 + iva / 100))))
      else result)

/-- The cell value computed for one column of one Clientes row (the body of
the inner `headers.forEach` at excel-processor.ts lines 526-557). -/
def clientesCell (row : Row)
    (nombreIndex direccionIndex codigoListaPreciosIndex condicionIvaIndex : Option Nat)
    (priceListCode : Cell) (colIndex : Nat) (header : String) : Cell :=
  let originalValue := row.get? colIndex
  let value := nullishD originalValue (.str "SN")
  let isVisitaColumn := strIncludes (jsToLower header) "visita"
  let value :=
    if isVisitaColumn ∧
        (originalValue = none ∨ originalValue = some .undef ∨
          originalValue = some (.str "")) then
      .str ""
    else value
  let value :=
    if some colIndex = nombreIndex ∧ ¬ direccionIndex = none then
      let nombre := cellToStr (nullishD (row.get? ((nombreIndex).getD 0)) (.str ""))
      let direccion := cellToStr (nullishD (row.get? ((direccionIndex).getD 0)) (.str ""))
      .str (jsTrim (nombre ++ " - " ++ direccion))
    else value
  let value :=
    if some colIndex = codigoListaPreciosIndex then priceListCode else value
  if some colIndex = condicionIvaIndex then mapCondicionIvaToKey value else value

/-- The error message of the defensive anchor check in `processClientesWorksheet`. -/
def missingAnchorMsg : String :=
  "No se pudo encontrar la columna \"Visita Lunes\" para insertar \"Codigo Lista precios\""

/-- `listaPrecios.length > 0 ? listaPrecios[0].Codigo : 'SN'`. -/
def priceListCodeOf (listaPrecios : List Record) : Cell :=
  match listaPrecios with
  | [] => .str "SN"
  | r :: _ => (getKey r "Codigo").getD Cell.undef

/-- The shared tail of `processClientesWorksheet` once the headers and the
`Codigo Lista precios` index are settled.  `nombreIndex`, `direccionIndex` and
`condicionIvaIndex` are the indices computed BEFORE the possible column
insertion (the source does not recompute them). -/
def clientesRows (headers : List String) (rows : List Row)
    (nombreIndex direccionIndex condicionIvaIndex codigoListaPreciosIndex : Option Nat)
    (listaPrecios : List Record) : List Record :=
  let priceListCode := priceListCodeOf listaPrecios
  let codigoIndex := headers.findIdx?
    (fun h => strIncludes (jsToLower h) "codigo" && ! strIncludes (jsToLower h) "lista")
  mapWithIndex (fun index row =>
    applyCols (fun colIndex => some colIndex = codigoIndex)
      (clientesCell row nombreIndex direccionIndex codigoListaPreciosIndex
        condicionIvaIndex priceListCode)
      (enumFrom 0 headers)
      [("Codigo", .num ((index : Rat) + 1))])
    rows

/-- `processClientesWorksheet` (excel-processor.ts lines 475-561); the
`throw new Error(...)` becomes `Except.error`. -/
def processClientesWorksheet (data : Grid) (listaPrecios : List Record) :
    Except String (List Record) :=
  if data.length ≤ 1 then .ok []
  else
    let headers := (data.headD []).map cellToStr
    let nombreIndex := headers.findIdx? (fun h => strIncludes (jsToLower h) "nombre")
    let direccionIndex := headers.findIdx? (fun h => strIncludes (jsToLower h) "direccion")
    let codigoListaPreciosIndex := headers.findIdx?
      (fun h => strIncludes (jsToLower h) "codigo lista precios")
    let condicionIvaIndex := headers.findIdx?
      (fun h => strIncludes (jsToLower h) "condicion" && strIncludes (jsToLower h) "iva")
    match codigoListaPreciosIndex with
    | some k =>
      .ok (clientesRows headers data.tail nombreIndex direccionIndex condicionIvaIndex
        (some k) listaPrecios)
    | none =>
      match headers.findIdx?
          (fun h => strIncludes (jsToLower h) "visita" && strIncludes (jsToLower h) "lunes") with
      | none => .error missingAnchorMsg
      | some visitaLunesIndex =>
        let headers := insertAt headers visitaLunesIndex "Codigo Lista precios"
        let rows := data.tail.map (fun r => insertAt r visitaLunesIndex (.str ""))
        .ok (clientesRows headers rows nombreIndex direccionIndex condicionIvaIndex
          (some visitaLunesIndex) listaPrecios)

/-! ## Batch Orchestrator -/

/-- `findWorksheetData` (excel-processor.ts lines 335-338). -/
def findWorksheetData (wb : Workbook) (sheetName : String) : Grid :=
  match findWorksheetKey wb sheetName with
  | some k => (lookupKey wb k).getD []
  | none => []

structure ProcessedData where
  distribuidor : List Record
  listaPrecios : List Record
  listaPreciosTradicional : List Record
  clientes : List Record
deriving DecidableEq, Repr

/-- `processWorksheets` (excel-processor.ts lines 306-330); the Clientes
transform's exception propagates. -/
def processWorksheets (wb : Workbook) : Except String ProcessedData :=
  let distribuidorData := findWorksheetData wb "DISTRIBUIDOR"
  let listaPreciosData := findWorksheetData wb "LISTA DE PRECIOS"
  let listaPreciosTradicionalData := findWorksheetData wb "LISTA DE PRECIOS TRADICIONAL"
  let clientesData := findWorksheetData wb "CLIENTES"
  let distribuidor := processDistribuidorWorksheet distribuidorData
  let listaPrecios := processListaPreciosWorksheet listaPreciosData
  let listaPreciosTradicional :=
    processListaPreciosTradicionalWorksheet listaPreciosTradicionalData
  match processClientesWorksheet clientesData listaPrecios with
  | .error e => .error e
  | .ok clientes => .ok ⟨distribuidor, listaPrecios, listaPreciosTradicional, clientes⟩

structure ProcessingResult where
  success : Bool
  fileName : String
  message : String
  errors : Option (List String)
  columnValidation : Option (List ColumnValidationResult)
  processedData : Option ProcessedData
deriving DecidableEq, Repr

/-- `processExcelFile` (excel-processor.ts lines 135-184) from the point where
the workbook has been decoded: the file-extension gate and the codec's
read/write I/O (including `generateOutputFile`, which only serializes the
processed data) stay outside the pure model. -/
def processExcelFileData (fileName : String) (wb : Workbook) : ProcessingResult :=
  let validationErrors := validateWorksheets wb
  if ¬ validationErrors = [] then
    { success := false, fileName := fileName, message := "Missing required worksheets",
      errors := some validationErrors, columnValidation := none, processedData := none }
  else
    let updated := validateAndAddMissingColumns wb
    match processWorksheets updated.1 with
    | .error e =>
      { success := false, fileName := fileName,
        message := "Fallo el procesamiento: " ++ e, errors := some [e],
        columnValidation := none, processedData := none }
    | .ok pd =>
      { success := true, fileName := fileName, message := "Archivo procesado con éxito",
        errors := none, columnValidation := some updated.2, processedData := some pd }

/-! ## Spec-side descriptions of the condition-code mapper

`findExactTier`/`findMergedTier` restate the source's two loops through
`List.find?`; `findSubstringTier`/`findFirstWordTier` are the separate tiers
(b) and (c) exactly as claim C8 words them, for comparison with the source. -/

def findExactTier (entries : List (String × Rat)) (lowerText : String) : Option Rat :=
  (entries.find? (fun e => jsToLower e.1 = lowerText)).map fun p => p.2

def findMergedTier (entries : List (String × Rat)) (lowerText : String) : Option Rat :=
  (entries.find? (fun e =>
    (strIncludes lowerText (jsToLower e.1) ∨ strIncludes (jsToLower e.1) lowerText) ∨
      (strIncludes lowerText (firstWord (jsToLower e.1)) ∨
        strIncludes (firstWord (jsToLower e.1)) lowerText))).map fun p => p.2

def findSubstringTier (entries : List (String × Rat)) (lowerText : String) : Option Rat :=
  (entries.find? (fun e =>
    strIncludes lowerText (jsToLower e.1) ∨ strIncludes (jsToLower e.1) lowerText)).map
    fun p => p.2

def findFirstWordTier (entries : List (String × Rat)) (lowerText : String) : Option Rat :=
  (entries.find? (fun e =>
    strIncludes lowerText (firstWord (jsToLower e.1)) ∨
      strIncludes (firstWord (jsToLower e.1)) lowerText)).map fun p => p.2

/-- The condition-code mapper exactly as claim C8 describes it: tier (a)
exact match over all entries, THEN tier (b) substring match over all entries,
THEN tier (c) first-word match over all entries. -/
def specTieredCondMapper (c : Cell) : Cell :=
  match c with
  | .num q => .num q
  | c =>
    let text := jsTrim (cellToStr c)
    if text = "" ∨ text = "SN" then .str text
    else
      let lowerText := jsToLower text
      match findExactTier condicionIva lowerText with
      | some v => .num v
      | none =>
        match findSubstringTier condicionIva lowerText with
        | some v => .num v
        | none =>
          match findFirstWordTier condicionIva lowerText with
          | some v => .num v
          | none => .str text

/-- The condition-code mapper with the amended tier structure: tier (a) exact
match over all entries, then ONE pass over the entries in which each entry is
tested for a substring match or a first-word match before moving on. -/
def amendedTieredCondMapper (c : Cell) : Cell :=
  match c with
  | .num q => .num q
  | c =>
    let text := jsTrim (cellToStr c)
    if text = "" ∨ text = "SN" then .str text
    else
      let lowerText := jsToLower text
      match findExactTier condicionIva lowerText with
      | some v => .num v
      | none =>
        match findMergedTier condicionIva lowerText with
        | some v => .num v
        | none => .str text

/-! ## Shared concrete inputs -/

def distribuidorHeaderRow : Row :=
  [.str "Codigo", .str "Nombre", .str "CUIT", .str "Telefono", .str "Email",
   .str "Condicion Iva", .str "Persona Contacto"]

def tradicionalHeaderRow : Row :=
  [.str "Codigo de Lista", .str "Código Producto Bimbo", .str "Nombre del Producto",
   .str "Marca", .str "Categoria del producto", .str "Precio Sin IVA", .str "% IVA",
   .str "Precio con IVA"]

/-- Traditional price-list grid with one row carrying only `Precio Sin IVA = 100`
and `% IVA = 21` (the `Precio con IVA` cell is absent). -/
def tradSinIvaGrid : Grid :=
  [tradicionalHeaderRow,
   [.str "L1", .str "P1", .str "N", .str "M", .str "C", .num 100, .num 21]]

/-- Traditional price-list grid with one row carrying only `Precio con IVA = 121`
and `% IVA = 21` (the `Precio Sin IVA` cell is the empty string). -/
def tradConIvaGrid : Grid :=
  [tradicionalHeaderRow,
   [.str "L1", .str "P1", .str "N", .str "M", .str "C", .str "", .num 21, .num 121]]

/-- Traditional price-list grid with one row carrying both prices. -/
def tradBothGrid : Grid :=
  [tradicionalHeaderRow,
   [.str "L1", .str "P1", .str "N", .str "M", .str "C", .num 100, .num 21, .num 150]]

/-! ## Claim C9 -/

/-- C9: `parseNumericValue` rounds numeric input to 2 decimal places with
`round(x*100)/100` (half-up) semantics; textual input is stripped of quotes
and whitespace, its first comma becomes a period, and the result is parsed as
a float with 0 on parse failure; every return value has at most 2 decimal
places.  Sample points: `"2,5"`, a quoted `" \"1,234\" "`, an unparseable
`"abc"`, and the number `2.322`. -/
theorem c9_parse_numeric :
    (∀ q : Rat, parseNumericValue (.num q) = (jsRound (q * 100) : Rat) / 100) ∧
    (∀ s : String, parseNumericValue (.str s) =
      (match jsParseFloat (normalizeNumericText s) with
       | none => 0
       | some q => round2 q)) ∧
    (∀ c : Cell, ∃ k : Int, parseNumericValue c = (k : Rat) / 100) ∧
    parseNumericValue (.str "2,5") = 5/2 ∧
    parseNumericValue (.str " \"1,234\" ") = 123/100 ∧
    parseNumericValue (.str "abc") = 0 ∧
    parseNumericValue (.num (2322/1000)) = 58/25 := by
  refine ⟨fun q => rfl, fun s => rfl, ?_, by decide, by decide, by decide, by decide⟩
  intro c
  match c with
  | .num q => exact ⟨jsRound (q * 100), rfl⟩
  | .undef => exact ⟨0, by norm_num [parseNumericValue]⟩
  | .str s =>
    cases h : jsParseFloat (normalizeNumericText s) with
    | none => exact ⟨0, by simp [parseNumericValue, h]⟩
    | some q => exact ⟨jsRound (q * 100), by simp [parseNumericValue, h, round2]⟩

/-! ## Claim C10 -/

/-- C10: a grid that is empty or has only a header row makes each of the four
worksheet transforms return an empty record list (and, for the Clientes
transform, no error). -/
theorem c10_short_grids (g : Grid) (lp : List Record) (h : g.length ≤ 1) :
    processDistribuidorWorksheet g = [] ∧
    processListaPreciosWorksheet g = [] ∧
    processListaPreciosTradicionalWorksheet g = [] ∧
    processClientesWorksheet g lp = .ok [] := by
  refine ⟨?_, ?_, ?_, ?_⟩
  all_goals
    simp [processDistribuidorWorksheet, processListaPreciosWorksheet,
      processListaPreciosTradicionalWorksheet, processClientesWorksheet, h]

/-- Witness for C10 at a one-row grid. -/
theorem c10_short_grids_witness :
    ([[Cell.str "Nombre"]] : Grid).length ≤ 1 ∧
    processClientesWorksheet [[Cell.str "Nombre"]] [] = .ok [] :=
  ⟨by decide, (c10_short_grids [[Cell.str "Nombre"]] [] (by decide)).2.2.2⟩

/-! ## Claim C4 -/

/-- C4: observed behavior of the LISTA DE PRECIOS TRADICIONAL transform at the
claim's three scenarios.  The claim expects `Precio con IVA = 121.00` for the
row with only `Precio Sin IVA = 100` and `% IVA = 21`; the code instead
computes 200.00, because `ivaIndex` is resolved by
`h.includes('% iva') || h.includes('iva')` and therefore lands on the
`Precio Sin IVA` column (the first header containing `'iva'`), so the row's
own price value (100) is used as the IVA rate.  The reverse derivation
(121 → 100) and the both-present case behave as the claim states, because
there the misresolved rate cell is falsy (0) and the default 21 applies. -/
theorem c4_trad_iva_behavior :
    ((processListaPreciosTradicionalWorksheet tradSinIvaGrid).map
      (fun r => getKey r "Precio con IVA")) = [some (.num 200)] ∧
    ((processListaPreciosTradicionalWorksheet tradConIvaGrid).map
      (fun r => getKey r "Precio Sin IVA")) = [some (.num 100)] ∧
    ((processListaPreciosTradicionalWorksheet tradBothGrid).map
      (fun r => (getKey r "Precio Sin IVA", getKey r "Precio con IVA"))) =
      [(some (.num 100), some (.num 150))] := by
  refine ⟨by decide, by decide, by decide⟩

/-! ## Claim C8 -/

theorem findExactLoop_eq_tier (l : List (String × Rat)) (t : String) :
    findExactLoop l t = findExactTier l t := by
  induction l with
  | nil => rfl
  | cons e tl ih =>
    obtain ⟨k, v⟩ := e
    by_cases hk : jsToLower k = t
    · simp [findExactLoop, findExactTier, List.find?, hk]
    · simp only [findExactLoop, findExactTier, List.find?, hk, if_neg, if_false]
      simpa [findExactTier] using ih

theorem findPartialLoop_eq_tier (l : List (String × Rat)) (t : String) :
    findPartialLoop l t = findMergedTier l t := by
  induction l with
  | nil => rfl
  | cons e tl ih =>
    obtain ⟨k, v⟩ := e
    by_cases h1 : strIncludes t (jsToLower k) ∨ strIncludes (jsToLower k) t
    · simp [findPartialLoop, findMergedTier, List.find?, h1]
    · by_cases h2 : strIncludes t (firstWord (jsToLower k)) ∨
          strIncludes (firstWord (jsToLower k)) t
      · simp [findPartialLoop, findMergedTier, List.find?, h1, h2]
      · simp [findPartialLoop, findMergedTier, List.find?, h1, h2]
        simpa [findMergedTier] using ih

/-- C8 (counterexample): on the input `"responsable monotributista"` the
source mapper returns code 1 — the second loop tests each entry's substring
match AND first-word match before moving to the next entry, so the first
entry's first-word match (`"responsable"`) wins — whereas the claim's strict
tier ordering (substring tier over ALL entries before any first-word match)
returns code 6 (`"Monotributista"` matches by substring). -/
theorem c8_counterexample :
    mapCondicionIvaToKey (.str "responsable monotributista") = .num 1 ∧
    specTieredCondMapper (.str "responsable monotributista") = .num 6 ∧
    ¬ (Cell.num 1 = Cell.num 6) := by
  refine ⟨by decide, by decide, by decide⟩

/-- C8 (amended): the mapper applies tier (a) — case-insensitive exact match
over all entries — first; if it fails, tiers (b) and (c) are applied together
in ONE pass over the entries (for each entry in insertion order, a substring
match in either direction, then a first-word substring match in either
direction; the first entry matching either wins), not as two separate passes.
Unmatched text is returned trimmed; `"SN"` and the empty string are returned
as-is without lookup.  All of this is captured by equality with
`amendedTieredCondMapper`, which is written in exactly those terms. -/
theorem c8_tier_structure (c : Cell) :
    mapCondicionIvaToKey c = amendedTieredCondMapper c := by
  match c with
  | .num q => rfl
  | .undef =>
    simp only [mapCondicionIvaToKey, amendedTieredCondMapper,
      findExactLoop_eq_tier, findPartialLoop_eq_tier]
  | .str s =>
    simp only [mapCondicionIvaToKey, amendedTieredCondMapper,
      findExactLoop_eq_tier, findPartialLoop_eq_tier]

/-! ## Claim C7 -/

/-- Distribuidor grid whose CUIT cell is a single space: a non-empty string
with no digit characters. -/
def distribuidorSpaceCuitGrid : Grid :=
  [distribuidorHeaderRow,
   [.num 1, .str "Juan", .str " ", .str "t", .str "a@b.c", .str "Exento", .str "p"]]

/-- C7 (counterexample): the CUIT cell `" "` is a non-empty string containing
no digit characters, so the claim requires CUIT = `"SN"` and the captured text
appended to Nombre; but the code tests the TRIMMED capture for truthiness
(`transferredFromCuit` is `''`), so nothing is transferred: CUIT stays `" "`
and Nombre stays `"Juan"`. -/
theorem c7_counterexample :
    ¬ (" " : String) = "" ∧
    (" " : String).data.any Char.isDigit = false ∧
    getKey ((processDistribuidorWorksheet distribuidorSpaceCuitGrid).headD []) "CUIT" =
      some (.str " ") ∧
    getKey ((processDistribuidorWorksheet distribuidorSpaceCuitGrid).headD []) "Nombre" =
      some (.str "Juan") ∧
    ¬ (Cell.str " " = .str "SN") := by
  refine ⟨by decide, by decide, by decide, by decide, by decide⟩

/-- C7 (amended): on the canonical DISTRIBUIDOR header, a data row whose CUIT
cell is a string with no digit characters that is non-empty AFTER TRIMMING
gets CUIT = `"SN"`, and Nombre becomes `"<nombre> - <captured>"` when the
trimmed original Nombre is neither empty nor `"SN"`, else the captured
(trimmed) CUIT text alone. -/
theorem c7_cuit_transfer (c0 tel em cond pc : Cell) (t s : String)
    (hs : ¬ s = "") (hd : ¬ s.data.any Char.isDigit) (ht : ¬ jsTrim s = "") :
    (processDistribuidorWorksheet
        [distribuidorHeaderRow, [c0, .str t, .str s, tel, em, cond, pc]]).length = 1 ∧
    getKey ((processDistribuidorWorksheet
        [distribuidorHeaderRow, [c0, .str t, .str s, tel, em, cond, pc]]).headD [])
      "CUIT" = some (.str "SN") ∧
    ((¬ jsTrim t = "" ∧ ¬ jsTrim t = "SN") →
      getKey ((processDistribuidorWorksheet
          [distribuidorHeaderRow, [c0, .str t, .str s, tel, em, cond, pc]]).headD [])
        "Nombre" = some (.str (jsTrim t ++ " - " ++ jsTrim s))) ∧
    ((jsTrim t = "" ∨ jsTrim t = "SN") →
      getKey ((processDistribuidorWorksheet
          [distribuidorHeaderRow, [c0, .str t, .str s, tel, em, cond, pc]]).headD [])
        "Nombre" = some (.str (jsTrim s))) := by
  have hhdr : (distribuidorHeaderRow.map cellToStr) =
      ["Codigo", "Nombre", "CUIT", "Telefono", "Email", "Condicion Iva",
       "Persona Contacto"] := by decide
  have hlen : ¬ ([distribuidorHeaderRow,
      [c0, .str t, .str s, tel, em, cond, pc]] : Grid).length ≤ 1 := by simp
  simp only [processDistribuidorWorksheet, hlen, if_false, List.headD, hhdr]
  have he : (["Codigo", "Nombre", "CUIT", "Telefono", "Email", "Condicion Iva",
      "Persona Contacto"].findIdx? (fun h => strIncludes (jsToLower h) "email")) =
      some 4 := by decide
  have hc : (["Codigo", "Nombre", "CUIT", "Telefono", "Email", "Condicion Iva",
      "Persona Contacto"].findIdx?
      (fun h => strIncludes (jsToLower h) "condicion" && strIncludes (jsToLower h) "iva")) =
      some 5 := by decide
  have hq : (["Codigo", "Nombre", "CUIT", "Telefono", "Email", "Condicion Iva",
      "Persona Contacto"].findIdx? (fun h => strIncludes (jsToLower h) "cuit")) =
      some 2 := by decide
  have hn : (["Codigo", "Nombre", "CUIT", "Telefono", "Email", "Condicion Iva",
      "Persona Contacto"].findIdx? (fun h => strIncludes (jsToLower h) "nombre")) =
      some 1 := by decide
  simp only [he, hc, hq, hn, List.tail_cons, List.map_cons, List.map_nil]
  simp only [List.get?, hs, hd, Bool.false_eq_true, not_false_eq_true, and_self, if_true]
  simp only [applyCols, enumFrom, List.foldl, distribuidorCell, nullishD, jsStringOrEmpty,
    Cell.truthy, setKey, getKey, List.find?, ht]
  refine ⟨by simp, by simp [cellToStr], ?_, ?_⟩
  · intro h1
    by_cases h0 : t = ""
    · exact absurd (by rw [h0]; decide) h1.1
    · simp [cellToStr, h0, h1.1, h1.2]
  · intro h1
    have h00 : jsTrim "" = "" := by decide
    by_cases h0 : t = ""
    · simp [cellToStr, h0, h00]
    · rcases h1 with h1 | h1
      · simp [cellToStr, h0, h1]
      · simp [cellToStr, h0, h1]

/-- Witness for C7 at the claim's own example row (CUIT = `"ABC"`,
Nombre = `"Juan"`). -/
theorem c7_cuit_transfer_witness :
    (¬ ("ABC" : String) = "" ∧ ¬ ("ABC" : String).data.any Char.isDigit ∧
      ¬ jsTrim "ABC" = "" ∧ ¬ jsTrim "Juan" = "" ∧ ¬ jsTrim "Juan" = "SN") ∧
    getKey ((processDistribuidorWorksheet
        [distribuidorHeaderRow, [.num 1, .str "Juan", .str "ABC", .str "t", .str "e",
          .str "c", .str "p"]]).headD []) "CUIT" = some (.str "SN") ∧
    getKey ((processDistribuidorWorksheet
        [distribuidorHeaderRow, [.num 1, .str "Juan", .str "ABC", .str "t", .str "e",
          .str "c", .str "p"]]).headD []) "Nombre" =
      some (.str (jsTrim "Juan" ++ " - " ++ jsTrim "ABC")) :=
  ⟨⟨by decide, by decide, by decide, by decide, by decide⟩,
   (c7_cuit_transfer (.num 1) (.str "t") (.str "e") (.str "c") (.str "p") "Juan" "ABC"
     (by decide) (by decide) (by decide)).2.1,
   (c7_cuit_transfer (.num 1) (.str "t") (.str "e") (.str "c") (.str "p") "Juan" "ABC"
     (by decide) (by decide) (by decide)).2.2.1 ⟨by decide, by decide⟩⟩

/-! ## Claim C2 -/

/-- C2: a workbook without a CLIENTES worksheet (names compared
case-insensitively) yields a failed result whose error list contains
`"Falta la hoja: CLIENTES"`, with no column validation and no processed data;
when the other three required sheets are present the error list is exactly
that single entry. -/
theorem c2_missing_clientes (fn : String) (wb : Workbook)
    (h : ∀ p ∈ wb, ¬ jsToLower p.1 = "clientes") :
    (processExcelFileData fn wb).success = false ∧
    "Falta la hoja: CLIENTES" ∈ ((processExcelFileData fn wb).errors.getD []) ∧
    (processExcelFileData fn wb).columnValidation = none ∧
    (processExcelFileData fn wb).processedData = none ∧
    ((∃ p ∈ wb, jsToLower p.1 = "distribuidor") →
      (∃ p ∈ wb, jsToLower p.1 = "lista de precios") →
      (∃ p ∈ wb, jsToLower p.1 = "lista de precios tradicional") →
      (processExcelFileData fn wb).errors = some ["Falta la hoja: CLIENTES"]) := by
  have e4 : jsToLower "CLIENTES" = "clientes" := by decide
  have hcl : ((wb.map (fun p => jsToLower p.1)).any
      (fun k => k = jsToLower "CLIENTES")) = false := by
    rw [Bool.eq_false_iff]
    intro hk
    rw [List.any_eq_true] at hk
    obtain ⟨k, hkmem, hkeq⟩ := hk
    rw [List.mem_map] at hkmem
    obtain ⟨p, hp, rfl⟩ := hkmem
    rw [e4] at hkeq
    exact h p hp (by simpa using hkeq)
  have hmem : "Falta la hoja: CLIENTES" ∈ validateWorksheets wb := by
    simp only [validateWorksheets, List.mem_map]
    refine ⟨"CLIENTES", List.mem_filter.2 ⟨by decide, ?_⟩, rfl⟩
    simp [hcl]
  have hne : ¬ validateWorksheets wb = [] := List.ne_nil_of_mem hmem
  have hres : processExcelFileData fn wb =
      { success := false, fileName := fn, message := "Missing required worksheets",
        errors := some (validateWorksheets wb), columnValidation := none,
        processedData := none } := by
    simp [processExcelFileData, hne]
  refine ⟨by rw [hres], ?_, by rw [hres], by rw [hres], ?_⟩
  · rw [hres]
    simpa using hmem
  · rintro ⟨p1, hp1, hk1⟩ ⟨p2, hp2, hk2⟩ ⟨p3, hp3, hk3⟩
    have hav : ∀ x : String, (∃ p ∈ wb, jsToLower p.1 = x) →
        ((wb.map (fun p => jsToLower p.1)).any (fun k => k = x)) = true := by
      rintro x ⟨p, hp, rfl⟩
      simp only [List.any_eq_true, List.mem_map]
      exact ⟨jsToLower p.1, ⟨p, hp, rfl⟩, by simp⟩
    have e1 : jsToLower "DISTRIBUIDOR" = "distribuidor" := by decide
    have e2 : jsToLower "LISTA DE PRECIOS" = "lista de precios" := by decide
    have e3 : jsToLower "LISTA DE PRECIOS TRADICIONAL" =
        "lista de precios tradicional" := by decide
    have h1 := hav _ ⟨p1, hp1, hk1⟩
    have h2 := hav _ ⟨p2, hp2, hk2⟩
    have h3 := hav _ ⟨p3, hp3, hk3⟩
    rw [e4] at hcl
    have hfilter : (["DISTRIBUIDOR", "LISTA DE PRECIOS",
        "LISTA DE PRECIOS TRADICIONAL", "CLIENTES"].filter
          (fun s => ¬ (wb.map (fun p => jsToLower p.1)).any
            (fun k => k = jsToLower s))) = ["CLIENTES"] := by
      simp only [List.filter_cons, List.filter_nil, e1, e2, e3, e4]
      simp [h1, h2, h3, hcl]
    have hv : validateWorksheets wb = ["Falta la hoja: CLIENTES"] := by
      simp only [validateWorksheets]
      rw [hfilter]
      rfl
    rw [hres, hv]

/-- Witness for C2: a workbook carrying the other three sheets but no
CLIENTES sheet. -/
theorem c2_missing_clientes_witness :
    (∀ p ∈ ([("distribuidor", [distribuidorHeaderRow]),
        ("Lista de Precios", [[Cell.str "Codigo", Cell.str "Nombre"]]),
        ("LISTA DE PRECIOS TRADICIONAL", [tradicionalHeaderRow])] : Workbook),
      ¬ jsToLower p.1 = "clientes") ∧
    (processExcelFileData "f.xlsx" [("distribuidor", [distribuidorHeaderRow]),
        ("Lista de Precios", [[Cell.str "Codigo", Cell.str "Nombre"]]),
        ("LISTA DE PRECIOS TRADICIONAL", [tradicionalHeaderRow])]).errors =
      some ["Falta la hoja: CLIENTES"] :=
  ⟨by decide,
   (c2_missing_clientes "f.xlsx" _ (by decide)).2.2.2.2
     (by decide) (by decide) (by decide)⟩

/-! ## Claim C1 -/

/-- Workbook whose CLIENTES sheet header (`Nombre`, `Direccion`) has no column
matching `Codigo Lista precios` under any of the code's tests and no
visita/lunes anchor column. -/
def noAnchorWorkbook : Workbook :=
  [("DISTRIBUIDOR", [distribuidorHeaderRow]),
   ("LISTA DE PRECIOS", [[.str "Codigo", .str "Nombre"], [.str "LPG", .str "L"]]),
   ("LISTA DE PRECIOS TRADICIONAL", [tradicionalHeaderRow]),
   ("CLIENTES", [[.str "Nombre", .str "Direccion"], [.str "Juan", .str "Calle 1"]])]

/-- C1 (counterexample): the CLIENTES header of `noAnchorWorkbook` contains no
column matching `Codigo Lista precios` and no visita/lunes anchor, yet the
file processes SUCCESSFULLY: the reconciler's default positioning silently
appends `Codigo Lista precios` (after the other appended missing columns, at
position 8, before the also-appended `Visita Lunes`), and the worksheet
transform then finds that appended column, so no missing-anchor error is ever
raised. -/
theorem c1_counterexample :
    (∀ h ∈ (([.str "Nombre", .str "Direccion"] : Row).map cellToStr),
      ¬ strIncludes (jsToLower h) "codigo lista precios" ∧
      ¬ (strIncludes (jsToLower h) "visita" ∧ strIncludes (jsToLower h) "lunes")) ∧
    (processExcelFileData "f.xlsx" noAnchorWorkbook).success = true ∧
    (processExcelFileData "f.xlsx" noAnchorWorkbook).errors = none ∧
    ((lookupKey (validateAndAddMissingColumns noAnchorWorkbook).1 "CLIENTES").getD
        []).headD [] =
      ([.str "Nombre", .str "Direccion", .str "Codigo", .str "Telefono", .str "Email",
        .str "CUIT", .str "Condicion Iva", .str "Persona Contacto",
        .str "Codigo Lista precios", .str "Visita Lunes", .str "Visita Martes",
        .str "Visita Miercoles", .str "Visita Jueves", .str "Visita Viernes",
        .str "Visita Sábado", .str "Visita Domingo"] : Row) := by
  refine ⟨by decide, by decide, by decide, by decide⟩

/-- C1 (amended): the missing-anchor error is raised exactly by the worksheet
transform's defensive re-check, not by the reconciler: for any CLIENTES grid
with at least one data row whose headers contain no `codigo lista precios`
substring and no visita/lunes column, `processClientesWorksheet` fails with
the descriptive error.  (When instead the reconciler's weak presence test
finds no match for the column, the column is silently appended at the end and
processing succeeds, as the counterexample shows.) -/
theorem c1_missing_anchor_error (grid : Grid) (lp : List Record)
    (hlen : 2 ≤ grid.length)
    (hclp : ∀ h ∈ (grid.headD []).map cellToStr,
      ¬ strIncludes (jsToLower h) "codigo lista precios" = true)
    (hvl : ∀ h ∈ (grid.headD []).map cellToStr,
      ¬ (strIncludes (jsToLower h) "visita" = true ∧
         strIncludes (jsToLower h) "lunes" = true)) :
    processClientesWorksheet grid lp = .error missingAnchorMsg := by
  have h1 : ¬ grid.length ≤ 1 := by omega
  have hfind1 : ((grid.headD []).map cellToStr).findIdx?
      (fun h => strIncludes (jsToLower h) "codigo lista precios") = none := by
    rw [List.findIdx?_eq_none_iff]
    intro x hx
    exact Bool.not_eq_true _ |>.mp (hclp x hx)
  have hfind2 : ((grid.headD []).map cellToStr).findIdx?
      (fun h => strIncludes (jsToLower h) "visita" &&
        strIncludes (jsToLower h) "lunes") = none := by
    rw [List.findIdx?_eq_none_iff]
    intro x hx
    have hx2 := hvl x hx
    by_cases hA : strIncludes (jsToLower x) "visita" = true
    · have hB : ¬ strIncludes (jsToLower x) "lunes" = true := fun hB => hx2 ⟨hA, hB⟩
      simp [hA, Bool.not_eq_true _ |>.mp hB]
    · simp [Bool.not_eq_true _ |>.mp hA]
  simp only [processClientesWorksheet, if_neg h1]
  rw [hfind1, hfind2]

/-- Witness for the amended C1 theorem at a tiny concrete grid. -/
theorem c1_missing_anchor_error_witness :
    2 ≤ ([[Cell.str "Nombre"], [Cell.str "J"]] : Grid).length ∧
    processClientesWorksheet [[Cell.str "Nombre"], [Cell.str "J"]] [] =
      .error missingAnchorMsg :=
  ⟨by decide,
   c1_missing_anchor_error [[Cell.str "Nombre"], [Cell.str "J"]] [] (by decide)
     (by decide) (by decide)⟩

/-! ## Record and enumeration machinery -/

theorem getKey_setKey_self (r : Record) (k : String) (v : Cell) :
    getKey (setKey r k v) k = some v := by
  induction r with
  | nil => simp [setKey, getKey, List.find?]
  | cons p rest ih =>
    obtain ⟨k', v'⟩ := p
    by_cases h : k' = k
    · simp [setKey, h, getKey, List.find?]
    · simp only [setKey, if_neg h, getKey, List.find?]
      simp only [getKey] at ih
      simpa [h] using ih

theorem getKey_setKey_ne (r : Record) (k k' : String) (v : Cell) (h : ¬ k' = k) :
    getKey (setKey r k v) k' = getKey r k' := by
  have h2 : ¬ k = k' := fun he => h he.symm
  induction r with
  | nil => simp [setKey, getKey, List.find?, h2]
  | cons p rest ih =>
    obtain ⟨k0, v0⟩ := p
    by_cases h0 : k0 = k
    · subst h0
      simp [setKey, getKey, List.find?, h2]
    · simp only [setKey, if_neg h0, getKey, List.find?]
      simp only [getKey] at ih
      by_cases h1 : k0 = k'
      · simp [h1]
      · simpa [h1] using ih

theorem applyCols_cons (skip : Nat → Bool) (f : Nat → String → Cell)
    (p : Nat × String) (l : List (Nat × String)) (r0 : Record) :
    applyCols skip f (p :: l) r0 =
      applyCols skip f l (if skip p.1 then r0 else setKey r0 p.2 (f p.1 p.2)) := rfl

theorem getKey_applyCols_not_written (skip : Nat → Bool) (f : Nat → String → Cell)
    (cols : List (Nat × String)) (r0 : Record) (K : String)
    (h : ∀ p ∈ cols, skip p.1 = false → ¬ p.2 = K) :
    getKey (applyCols skip f cols r0) K = getKey r0 K := by
  induction cols generalizing r0 with
  | nil => rfl
  | cons p l ih =>
    rw [applyCols_cons]
    rw [ih _ (fun q hq => h q (List.mem_cons_of_mem p hq))]
    by_cases hs : skip p.1 = true
    · rw [if_pos hs]
    · rw [if_neg hs]
      have hs2 : skip p.1 = false := by simpa using hs
      exact getKey_setKey_ne r0 p.2 K (f p.1 p.2)
        (fun he => h p (List.mem_cons_self p l) hs2 he.symm)

theorem mem_enumFrom {α : Type} {p : Nat × α} :
    ∀ {n : Nat} {l : List α}, p ∈ enumFrom n l →
      ∃ i, p.1 = n + i ∧ l[i]? = some p.2 := by
  intro n l
  induction l generalizing n with
  | nil => intro h; cases h
  | cons a t ih =>
    intro h
    rw [enumFrom] at h
    rcases List.mem_cons.mp h with h | h
    · exact ⟨0, by simp [h], by simp [h]⟩
    · obtain ⟨i, hi, hg⟩ := ih h
      exact ⟨i + 1, by omega, by simpa using hg⟩

theorem enumFrom_map_getElem {α β : Type} (g : Nat × α → β) :
    ∀ (l : List α) (n i : Nat),
      ((enumFrom n l).map g)[i]? = (l[i]?).map (fun a => g (n + i, a)) := by
  intro l
  induction l with
  | nil => intro n i; simp [enumFrom]
  | cons a t ih =>
    intro n i
    cases i with
    | zero => simp [enumFrom]
    | succ j =>
      simp only [enumFrom, List.map_cons, List.getElem?_cons_succ]
      rw [ih (n + 1) j]
      have : n + 1 + j = n + (j + 1) := by omega
      rw [this]

theorem mapWithIndex_getElem {α β : Type} (f : Nat → α → β) (l : List α) (i : Nat) :
    (mapWithIndex f l)[i]? = (l[i]?).map (f i) := by
  unfold mapWithIndex
  rw [enumFrom_map_getElem]
  simp

theorem enumFrom_length {α : Type} : ∀ (n : Nat) (l : List α),
    (enumFrom n l).length = l.length := by
  intro n l
  induction l generalizing n with
  | nil => rfl
  | cons a t ih => simp [enumFrom, ih]

theorem mapWithIndex_length {α β : Type} (f : Nat → α → β) (l : List α) :
    (mapWithIndex f l).length = l.length := by
  unfold mapWithIndex
  rw [List.length_map, enumFrom_length]

/-! ## Claim C3 -/

/-- The headers the Clientes transform ends up iterating over: unchanged when
some header already contains `codigo lista precios`, else with
`Codigo Lista precios` spliced in before the visita/lunes anchor. -/
def clientesFinalHeaders (grid : Grid) : List String :=
  let headers := (grid.headD []).map cellToStr
  match headers.findIdx? (fun h => strIncludes (jsToLower h) "codigo lista precios") with
  | some _ => headers
  | none =>
    match headers.findIdx?
        (fun h => strIncludes (jsToLower h) "visita" && strIncludes (jsToLower h) "lunes") with
    | none => headers
    | some visitaLunesIndex => insertAt headers visitaLunesIndex "Codigo Lista precios"

/-- Core of C3: every record built by `clientesRows` keeps the auto-increment
`Codigo` provided no non-skipped column has the literal header `"Codigo"`,
which follows when at most one header matches the codigo search. -/
theorem clientesRows_codigo (headers : List String) (rows : List Row)
    (n d ci clp : Option Nat) (lp : List Record)
    (huniq : ∀ (i j : Nat) (a b : String), headers[i]? = some a → headers[j]? = some b →
      (strIncludes (jsToLower a) "codigo" && ! strIncludes (jsToLower a) "lista") = true →
      (strIncludes (jsToLower b) "codigo" && ! strIncludes (jsToLower b) "lista") = true →
      i = j) :
    (clientesRows headers rows n d ci clp lp).length = rows.length ∧
    ∀ (i : Nat) (r : Record), (clientesRows headers rows n d ci clp lp)[i]? = some r →
      getKey r "Codigo" = some (.num ((i : Rat) + 1)) := by
  constructor
  · simp only [clientesRows]
    exact mapWithIndex_length _ rows
  · intro i r hr
    simp only [clientesRows] at hr
    rw [mapWithIndex_getElem] at hr
    rcases hg : rows[i]? with _ | row
    · rw [hg] at hr; cases hr
    · rw [hg] at hr
      simp only [Option.map_some'] at hr
      injection hr with hr
      subst hr
      rw [getKey_applyCols_not_written]
      · simp [getKey, List.find?]
      · rintro ⟨cidx, hdr⟩ hmem hskip heq
        obtain ⟨k, hk0, hkel⟩ := mem_enumFrom hmem
        have hcidx : cidx = k := by simpa using hk0
        have hkel2 : headers[k]? = some hdr := hkel
        have heq2 : hdr = "Codigo" := heq
        rw [heq2] at hkel2
        have hpred : (strIncludes (jsToLower "Codigo") "codigo" &&
            ! strIncludes (jsToLower "Codigo") "lista") = true := by decide
        rcases hfind : headers.findIdx?
            (fun h => strIncludes (jsToLower h) "codigo" &&
              ! strIncludes (jsToLower h) "lista") with _ | j
        · rw [List.findIdx?_eq_none_iff] at hfind
          have hF := hfind "Codigo" (List.getElem?_mem hkel2)
          rw [hpred] at hF
          cases hF
        · have hspec := List.findIdx?_eq_some_iff_getElem.mp hfind
          obtain ⟨hlt, hpj, _⟩ := hspec
          have hje : headers[j]? = some headers[j] := List.getElem?_eq_getElem hlt
          have hkj := huniq k j "Codigo" headers[j] hkel2 hje hpred hpj
          rw [hfind] at hskip
          have hne : ¬ cidx = j := by simpa using hskip
          exact hne (hcidx.trans hkj)

instance {e a : Type} [DecidableEq e] [DecidableEq a] : DecidableEq (Except e a) := fun
  | .ok x, .ok y =>
    if h : x = y then .isTrue (by rw [h]) else .isFalse (by intro hc; cases hc; exact h rfl)
  | .error x, .error y =>
    if h : x = y then .isTrue (by rw [h]) else .isFalse (by intro hc; cases hc; exact h rfl)
  | .ok _, .error _ => .isFalse (by intro hc; cases hc)
  | .error _, .ok _ => .isFalse (by intro hc; cases hc)

/-- C3 (counterexample): a reconciled CLIENTES grid (a fixed point of the
reconciler, all required columns weakly found) with an extra `CODIGO X` column
before the literal `Codigo` column.  The codigo search resolves to index 0, so
the original `Codigo` column at index 1 is NOT skipped and overwrites the
auto-increment: the single output record carries Codigo = 99, not 1. -/
def dupCodigoClientesGrid : Grid :=
  [[.str "CODIGO X", .str "Codigo", .str "Nombre", .str "Direccion", .str "Telefono",
    .str "Email", .str "CUIT", .str "Condicion Iva", .str "Persona Contacto",
    .str "Codigo Lista precios", .str "Visita Lunes"],
   [.num 5, .num 99, .str "Juan", .str "Calle", .str "t", .str "e", .str "20-1",
    .str "Exento", .str "p", .str "SN", .str "X"]]

theorem c3_counterexample :
    (reconcileSheet "CLIENTES" clientesRequired dupCodigoClientesGrid).1 =
      dupCodigoClientesGrid ∧
    (reconcileSheet "CLIENTES" clientesRequired dupCodigoClientesGrid).2.missingColumns
      = [] ∧
    (processClientesWorksheet dupCodigoClientesGrid []).map
      (fun rs => rs.map (fun r => getKey r "Codigo")) =
      .ok [some (.num 99)] ∧
    ¬ (Cell.num 99 = .num 1) := by
  refine ⟨by decide, by decide, by decide, by decide⟩

/-- C3 (amended): whenever the Clientes transform succeeds and at most one
final header matches the codigo search (contains `codigo` but not `lista`,
case-insensitively), it outputs exactly one record per data row and the
`Codigo` of record `i` is `i + 1`, regardless of the grid's cell values. -/
theorem c3_codigo_autoincrement (grid : Grid) (lp : List Record) (recs : List Record)
    (hok : processClientesWorksheet grid lp = .ok recs)
    (huniq : ∀ (i j : Nat) (a b : String), (clientesFinalHeaders grid)[i]? = some a →
      (clientesFinalHeaders grid)[j]? = some b →
      (strIncludes (jsToLower a) "codigo" && ! strIncludes (jsToLower a) "lista") = true →
      (strIncludes (jsToLower b) "codigo" && ! strIncludes (jsToLower b) "lista") = true →
      i = j) :
    recs.length = grid.length - 1 ∧
    ∀ (i : Nat) (r : Record), recs[i]? = some r →
      getKey r "Codigo" = some (.num ((i : Rat) + 1)) := by
  by_cases hlen : grid.length ≤ 1
  · rw [processClientesWorksheet, if_pos hlen] at hok
    obtain rfl : recs = [] := by
      cases hok; rfl
    refine ⟨by simp only [List.length_nil]; omega, ?_⟩
    intro i r hr
    simp at hr
  · simp only [processClientesWorksheet, if_neg hlen] at hok
    rcases hclp : ((grid.headD []).map cellToStr).findIdx?
        (fun h => strIncludes (jsToLower h) "codigo lista precios") with _ | k
    · rw [hclp] at hok
      rcases hvl : ((grid.headD []).map cellToStr).findIdx?
          (fun h => strIncludes (jsToLower h) "visita" &&
            strIncludes (jsToLower h) "lunes") with _ | vl
      · rw [hvl] at hok
        cases hok
      · rw [hvl] at hok
        have hfh : clientesFinalHeaders grid =
            insertAt ((grid.headD []).map cellToStr) vl "Codigo Lista precios" := by
          rw [clientesFinalHeaders, hclp, hvl]
        rw [hfh] at huniq
        injection hok with hok2
        subst hok2
        constructor
        · rw [(clientesRows_codigo _ _ _ _ _ _ lp huniq).1, List.length_map,
            List.length_tail]
        · exact (clientesRows_codigo _ _ _ _ _ _ lp huniq).2
    · rw [hclp] at hok
      have hfh : clientesFinalHeaders grid = (grid.headD []).map cellToStr := by
        rw [clientesFinalHeaders, hclp]
      rw [hfh] at huniq
      injection hok with hok2
      subst hok2
      constructor
      · rw [(clientesRows_codigo _ _ _ _ _ _ lp huniq).1, List.length_tail]
      · exact (clientesRows_codigo _ _ _ _ _ _ lp huniq).2

/-- Witness for the amended C3 theorem on a small well-formed grid with
original Codigo values 99 and 5. -/
theorem c3_codigo_autoincrement_witness :
    processClientesWorksheet
        [[Cell.str "Codigo", Cell.str "Codigo Lista precios", Cell.str "Visita Lunes"],
         [Cell.num 99, Cell.str "SN", Cell.str "X"],
         [Cell.num 5, Cell.str "SN", Cell.str ""]] [] =
      .ok (processClientesWorksheet
        [[Cell.str "Codigo", Cell.str "Codigo Lista precios", Cell.str "Visita Lunes"],
         [Cell.num 99, Cell.str "SN", Cell.str "X"],
         [Cell.num 5, Cell.str "SN", Cell.str ""]] [] |>.toOption.getD []) ∧
    ((processClientesWorksheet
        [[Cell.str "Codigo", Cell.str "Codigo Lista precios", Cell.str "Visita Lunes"],
         [Cell.num 99, Cell.str "SN", Cell.str "X"],
         [Cell.num 5, Cell.str "SN", Cell.str ""]] [] |>.toOption.getD []).length = 2 ∧
      ∀ (i : Nat) (r : Record), (processClientesWorksheet
        [[Cell.str "Codigo", Cell.str "Codigo Lista precios", Cell.str "Visita Lunes"],
         [Cell.num 99, Cell.str "SN", Cell.str "X"],
         [Cell.num 5, Cell.str "SN", Cell.str ""]] [] |>.toOption.getD [])[i]? = some r →
        getKey r "Codigo" = some (.num ((i : Rat) + 1))) := by
  refine ⟨by decide, ?_⟩
  have h := c3_codigo_autoincrement
    [[Cell.str "Codigo", Cell.str "Codigo Lista precios", Cell.str "Visita Lunes"],
     [Cell.num 99, Cell.str "SN", Cell.str "X"],
     [Cell.num 5, Cell.str "SN", Cell.str ""]] []
    (processClientesWorksheet
      [[Cell.str "Codigo", Cell.str "Codigo Lista precios", Cell.str "Visita Lunes"],
       [Cell.num 99, Cell.str "SN", Cell.str "X"],
       [Cell.num 5, Cell.str "SN", Cell.str ""]] [] |>.toOption.getD [])
    (by decide)
    (by
      have hl : clientesFinalHeaders
          [[Cell.str "Codigo", Cell.str "Codigo Lista precios", Cell.str "Visita Lunes"],
           [Cell.num 99, Cell.str "SN", Cell.str "X"],
           [Cell.num 5, Cell.str "SN", Cell.str ""]] =
          ["Codigo", "Codigo Lista precios", "Visita Lunes"] := by decide
      intro i j a b hi hj ha hb
      rw [hl] at hi hj
      have hib : i < 3 := by
        by_contra hge
        rw [List.getElem?_eq_none (by simpa using hge)] at hi
        exact Option.noConfusion hi
      have hjb : j < 3 := by
        by_contra hge
        rw [List.getElem?_eq_none (by simpa using hge)] at hj
        exact Option.noConfusion hj
      interval_cases i <;> interval_cases j <;> simp_all <;>
        (subst hi; subst hj; revert ha hb; decide))
  exact ⟨by rw [h.1]; decide, h.2⟩

/-! ## Substring-matching facts -/

theorem charsLead_iff (p s : List Char) : charsLead p s = true ↔ p <+: s := by
  induction p generalizing s with
  | nil =>
    rw [show charsLead [] s = true from rfl]
    simp
  | cons c pt ih =>
    cases s with
    | nil =>
      rw [show charsLead (c :: pt) [] = false from rfl]
      simp
    | cons d st =>
      rw [show charsLead (c :: pt) (d :: st) = ((c == d) && charsLead pt st) from rfl]
      simp [List.cons_prefix_cons, ih, beq_iff_eq]

theorem charsWithin_iff (p s : List Char) : charsWithin p s = true ↔ p <:+: s := by
  induction s with
  | nil =>
    rw [show charsWithin p [] = p.isEmpty from rfl]
    simp [List.isEmpty_iff, List.infix_nil]
  | cons d st ih =>
    rw [show charsWithin p (d :: st) = (charsLead p (d :: st) || charsWithin p st) from rfl]
    simp [List.infix_cons_iff, charsLead_iff, ih]

theorem strIncludes_trans_within {s t u : String}
    (h1 : strIncludes s t = true) (h2 : charsWithin u.data t.data = true) :
    strIncludes s u = true := by
  rw [strIncludes, charsWithin_iff] at *
  exact h2.trans h1

theorem nodup_getElem?_inj {α : Type} {l : List α} (h : l.Nodup) {i j : Nat} {a : α}
    (hi : l[i]? = some a) (hj : l[j]? = some a) : i = j := by
  obtain ⟨hilt, hieq⟩ := List.getElem?_eq_some.mp hi
  obtain ⟨hjlt, hjeq⟩ := List.getElem?_eq_some.mp hj
  exact (@List.Nodup.getElem_inj_iff _ _ h i hilt j hjlt).mp (by rw [hieq, hjeq])

/-! ## Claim C6 -/

theorem enumFrom_split {α : Type} :
    ∀ (l : List α) (k n : Nat) (a : α), l[k]? = some a →
      enumFrom n l =
        enumFrom n (l.take k) ++ (n + k, a) :: enumFrom (n + k + 1) (l.drop (k + 1)) := by
  intro l
  induction l with
  | nil => intro k n a h; simp at h
  | cons b t ih =>
    intro k n a h
    cases k with
    | zero =>
      simp only [List.getElem?_cons_zero, Option.some.injEq] at h
      subst h
      simp [enumFrom]
    | succ k0 =>
      simp only [List.getElem?_cons_succ] at h
      have := ih k0 (n + 1) a h
      simp only [enumFrom, List.take_succ_cons, List.drop_succ_cons]
      rw [this]
      have e1 : n + 1 + k0 = n + (k0 + 1) := by omega
      rw [e1]
      rw [List.cons_append]

theorem getKey_applyCols_write (skip : Nat → Bool) (f : Nat → String → Cell)
    (pre post : List (Nat × String)) (k : Nat) (K : String) (r0 : Record)
    (hskip : skip k = false)
    (hpost : ∀ p ∈ post, skip p.1 = false → ¬ p.2 = K) :
    getKey (applyCols skip f (pre ++ (k, K) :: post) r0) K = some (f k K) := by
  have happ : applyCols skip f (pre ++ (k, K) :: post) r0 =
      applyCols skip f ((k, K) :: post) (applyCols skip f pre r0) := by
    unfold applyCols
    rw [List.foldl_append]
  rw [happ, applyCols_cons]
  rw [if_neg (by simp [hskip])]
  rw [getKey_applyCols_not_written skip f post _ K hpost]
  exact getKey_setKey_self _ K _

/-- Core of C6: when `clientesRows` runs with a settled price-list-code column
index `k` whose header is `key`, the headers have no duplicates, and the
(possibly stale) condicion-iva index is not `k`, every output record carries
`priceListCodeOf lp` under `key`. -/
theorem clientesRows_clp (headers : List String) (rows : List Row)
    (n d ci : Option Nat) (lp : List Record) (k : Nat) (key : String)
    (hkey : headers[k]? = some key)
    (hkeyp : strIncludes (jsToLower key) "codigo lista precios" = true)
    (hnodup : headers.Nodup)
    (hci : ¬ some k = ci) :
    ∀ r ∈ clientesRows headers rows n d ci (some k) lp,
      getKey r key = some (priceListCodeOf lp) := by
  intro r hr
  simp only [clientesRows, mapWithIndex, List.mem_map] at hr
  obtain ⟨⟨i, row⟩, _, rfl⟩ := hr
  have hlista : strIncludes (jsToLower key) "lista" = true :=
    strIncludes_trans_within hkeyp (by decide)
  have hskip : (fun colIndex => decide (some colIndex =
      headers.findIdx? (fun h => strIncludes (jsToLower h) "codigo" &&
        ! strIncludes (jsToLower h) "lista"))) k = false := by
    simp only [decide_eq_false_iff_not]
    intro hc
    have hspec := List.findIdx?_eq_some_iff_getElem.mp hc.symm
    obtain ⟨hlt, hp, _⟩ := hspec
    have : headers[k] = key := by
      have := List.getElem?_eq_getElem hlt
      rw [this] at hkey
      exact (Option.some.injEq _ _).mp hkey
    rw [this, hlista] at hp
    simp at hp
  have hsplit := enumFrom_split headers k 0 key hkey
  rw [Nat.zero_add] at hsplit
  simp only
  rw [hsplit, getKey_applyCols_write _ _ _ _ k key _ hskip]
  · have : clientesCell row n d (some k) ci (priceListCodeOf lp) k key =
        priceListCodeOf lp := by
      simp [clientesCell, hci]
    rw [this]
  · rintro ⟨j, hdr⟩ hmem hsk heq
    obtain ⟨m, hm0, hmel⟩ := mem_enumFrom hmem
    have hj : j = k + 1 + m := by simpa using hm0
    have hdrel : (headers.drop (k + 1))[m]? = some hdr := hmel
    rw [List.getElem?_drop] at hdrel
    have heq2 : hdr = key := heq
    rw [heq2] at hdrel
    have := nodup_getElem?_inj hnodup hdrel hkey
    omega

/-- A reconciled CLIENTES grid (fixed point of the reconciler) carrying TWO
columns named `Codigo Lista precios`. -/
def dupClpClientesGrid : Grid :=
  [[.str "Codigo", .str "Nombre", .str "Direccion", .str "Telefono", .str "Email",
    .str "CUIT", .str "Condicion Iva", .str "Persona Contacto",
    .str "Codigo Lista precios", .str "Visita Lunes", .str "Codigo Lista precios"],
   [.num 1, .str "Juan", .str "Calle", .str "t", .str "e", .str "20-1", .str "Exento",
    .str "p", .str "IGNORED", .str "X", .str "OLD"]]

/-- C6 (counterexample): on a reconciled grid with a duplicated
`Codigo Lista precios` header, the rule-9 overwrite at the first matching
column (index 8) is itself overwritten when the later duplicate column (index
10) assigns the row's original cell to the same record key: the output value
is `"OLD"`, not the first price-list record's Codigo `"LPG"`. -/
theorem c6_counterexample :
    (reconcileSheet "CLIENTES" clientesRequired dupClpClientesGrid).1 =
      dupClpClientesGrid ∧
    (reconcileSheet "CLIENTES" clientesRequired dupClpClientesGrid).2.missingColumns
      = [] ∧
    (processClientesWorksheet dupClpClientesGrid
        [[("Codigo", .str "LPG"), ("Nombre", .str "L")]]).map
      (fun rs => rs.map (fun r => getKey r "Codigo Lista precios")) =
      .ok [some (.str "OLD")] ∧
    priceListCodeOf [[("Codigo", .str "LPG"), ("Nombre", .str "L")]] = .str "LPG" ∧
    ¬ (Cell.str "OLD" = .str "LPG") := by
  refine ⟨by decide, by decide, by decide, by decide, by decide⟩

/-- C6 (amended): whenever the Clientes transform succeeds, the final headers
contain no duplicate names, and the resolved price-list-code column is not
also the resolved condicion-iva column, every output record's value under the
price-list-code header equals the first processed LISTA DE PRECIOS record's
`Codigo` (or `"SN"` when the record list is empty), regardless of the row's
original value in that column. -/
theorem c6_price_list_code (grid : Grid) (lp : List Record) (recs : List Record)
    (k : Nat) (key : String)
    (hok : processClientesWorksheet grid lp = .ok recs)
    (hnodup : (clientesFinalHeaders grid).Nodup)
    (hclpfound : ((grid.headD []).map cellToStr).findIdx?
        (fun h => strIncludes (jsToLower h) "codigo lista precios") = some k)
    (hkey : (clientesFinalHeaders grid)[k]? = some key)
    (hci : ¬ some k = ((grid.headD []).map cellToStr).findIdx?
        (fun h => strIncludes (jsToLower h) "condicion" && strIncludes (jsToLower h) "iva")) :
    ∀ r ∈ recs, getKey r key = some (priceListCodeOf lp) := by
  by_cases hlen : grid.length ≤ 1
  · rw [processClientesWorksheet, if_pos hlen] at hok
    injection hok with hok2
    subst hok2
    intro r hr
    cases hr
  · simp only [processClientesWorksheet, if_neg hlen] at hok
    rw [hclpfound] at hok
    injection hok with hok2
    subst hok2
    have hfh : clientesFinalHeaders grid = (grid.headD []).map cellToStr := by
      rw [clientesFinalHeaders, hclpfound]
    rw [hfh] at hkey hnodup
    have hspec := List.findIdx?_eq_some_iff_getElem.mp hclpfound
    obtain ⟨hlt, hp, _⟩ := hspec
    have hkeyp : strIncludes (jsToLower key) "codigo lista precios" = true := by
      have hg := List.getElem?_eq_getElem hlt
      rw [hg] at hkey
      have : ((grid.headD []).map cellToStr)[k] = key :=
        (Option.some.injEq _ _).mp hkey
      rw [this] at hp
      exact hp
    exact clientesRows_clp _ grid.tail _ _ _ lp k key hkey hkeyp hnodup hci

/-- Small well-formed CLIENTES grid and price list for the C6 witness. -/
def c6WitnessGrid : Grid :=
  [[.str "Codigo", .str "Codigo Lista precios", .str "Visita Lunes"],
   [.num 7, .str "X", .str ""]]

def c6WitnessLista : List Record := [[("Codigo", .str "LPG"), ("Nombre", .str "L")]]

/-- Witness for the amended C6 theorem. -/
theorem c6_price_list_code_witness :
    (processClientesWorksheet c6WitnessGrid c6WitnessLista =
      .ok ((processClientesWorksheet c6WitnessGrid c6WitnessLista).toOption.getD []) ∧
     (clientesFinalHeaders c6WitnessGrid).Nodup ∧
     ((c6WitnessGrid.headD []).map cellToStr).findIdx?
        (fun h => strIncludes (jsToLower h) "codigo lista precios") = some 1 ∧
     (clientesFinalHeaders c6WitnessGrid)[1]? = some "Codigo Lista precios" ∧
     ¬ some 1 = ((c6WitnessGrid.headD []).map cellToStr).findIdx?
        (fun h => strIncludes (jsToLower h) "condicion" &&
          strIncludes (jsToLower h) "iva")) ∧
    ∀ r ∈ (processClientesWorksheet c6WitnessGrid c6WitnessLista).toOption.getD [],
      getKey r "Codigo Lista precios" = some (priceListCodeOf c6WitnessLista) :=
  ⟨⟨by decide, by decide, by decide, by decide, by decide⟩,
   c6_price_list_code c6WitnessGrid c6WitnessLista _ 1 "Codigo Lista precios"
     (by decide) (by decide) (by decide) (by decide) (by decide)⟩

/-! ## Claim C5: trim idempotency -/

theorem dropWhile_dropWhile {α : Type} (p : α → Bool) (l : List α) :
    (l.dropWhile p).dropWhile p = l.dropWhile p := by
  induction l with
  | nil => rfl
  | cons a t ih =>
    rw [List.dropWhile_cons]
    by_cases h : p a = true
    · rw [if_pos h, ih]
    · rw [if_neg h, List.dropWhile_cons, if_neg h]

theorem dropWhile_suffix_of {α : Type} (p : α → Bool) (l : List α) :
    l.dropWhile p <:+ l := by
  induction l with
  | nil => exact List.suffix_rfl
  | cons a t ih =>
    rw [List.dropWhile_cons]
    by_cases h : p a = true
    · rw [if_pos h]
      exact ih.trans (List.suffix_cons a t)
    · rw [if_neg h]

theorem head_dropWhile_false {α : Type} (p : α → Bool) (l : List α) :
    ∀ (a : α) (t : List α), l.dropWhile p = a :: t → p a = false := by
  induction l with
  | nil => intro a t h; cases h
  | cons b u ih =>
    intro a t h
    rw [List.dropWhile_cons] at h
    by_cases hb : p b = true
    · rw [if_pos hb] at h
      exact ih a t h
    · rw [if_neg hb] at h
      cases h
      simpa using hb

theorem trimList_idem (l : List Char) :
    (((((l.dropWhile isJsWsChar).reverse.dropWhile isJsWsChar).reverse.dropWhile
        isJsWsChar).reverse.dropWhile isJsWsChar).reverse) =
      ((l.dropWhile isJsWsChar).reverse.dropWhile isJsWsChar).reverse := by
  have c1 : ((l.dropWhile isJsWsChar).reverse.dropWhile isJsWsChar).reverse.dropWhile
      isJsWsChar =
      ((l.dropWhile isJsWsChar).reverse.dropWhile isJsWsChar).reverse := by
    cases hr : ((l.dropWhile isJsWsChar).reverse.dropWhile isJsWsChar).reverse with
    | nil => rfl
    | cons a t =>
      have hsuf : (l.dropWhile isJsWsChar).reverse.dropWhile isJsWsChar <:+
          (l.dropWhile isJsWsChar).reverse := dropWhile_suffix_of _ _
      have hpre : ((l.dropWhile isJsWsChar).reverse.dropWhile isJsWsChar).reverse <+:
          l.dropWhile isJsWsChar := by
        have h2 := List.reverse_prefix.mpr hsuf
        rwa [List.reverse_reverse] at h2
      rw [hr] at hpre
      obtain ⟨t2, ht2⟩ := hpre
      have hpa : isJsWsChar a = false := by
        refine head_dropWhile_false isJsWsChar l a (t ++ t2) ?_
        rw [← ht2]
        rfl
      rw [List.dropWhile_cons, if_neg (by simp [hpa])]
  rw [c1, List.reverse_reverse, dropWhile_dropWhile]

theorem jsTrim_idem (s : String) : jsTrim (jsTrim s) = jsTrim s := by
  unfold jsTrim
  exact congrArg String.mk (trimList_idem s.data)

/-! ## Claim C5: insertion membership -/

theorem mem_insertAt_self {α : Type} (l : List α) (i : Nat) (a : α) :
    a ∈ insertAt l i a := by
  unfold insertAt
  exact List.mem_append_right _ (List.mem_cons_self a _)

theorem mem_insertAt_of_mem {α : Type} {l : List α} {x : α} (h : x ∈ l) (i : Nat) (a : α) :
    x ∈ insertAt l i a := by
  unfold insertAt
  have h2 := h
  rw [← List.take_append_drop i l] at h2
  rcases List.mem_append.mp h2 with h3 | h3
  · exact List.mem_append_left _ h3
  · exact List.mem_append_right _ (List.mem_cons_of_mem a h3)

theorem addMissingCols_mem_of_mem (name : String) :
    ∀ (cols : List String) (st : List String × List Row) (x : String),
      x ∈ st.1 → x ∈ (addMissingCols name cols st).1 := by
  intro cols
  induction cols with
  | nil => intro st x h; exact h
  | cons c rest ih =>
    intro st x h
    rcases st with ⟨hs, rows⟩
    exact ih _ x (mem_insertAt_of_mem h _ c)

theorem addMissingCols_mem_inserted (name : String) :
    ∀ (cols : List String) (st : List String × List Row) (c : String),
      c ∈ cols → c ∈ (addMissingCols name cols st).1 := by
  intro cols
  induction cols with
  | nil => intro st c h; cases h
  | cons c0 rest ih =>
    intro st c h
    rcases st with ⟨hs, rows⟩
    rcases List.mem_cons.mp h with h | h
    · subst h
      exact addMissingCols_mem_of_mem name rest _ c (mem_insertAt_self hs _ c)
    · exact ih _ c h

/-! ## Claim C5: a reconciled sheet has nothing missing -/

theorem map_trim_str (hs : List String) :
    (hs.map Cell.str).map (fun c => jsTrim (cellToStr c)) = hs.map jsTrim := by
  induction hs with
  | nil => rfl
  | cons a t ih =>
    simp only [List.map_cons]
    rw [ih]
    rfl

/-- Core step for C5: after the insertion loop has run, every required column
passes the weak presence test again, whether it was just inserted (it contains
its own first word) or was already present (its trimmed witness header
survives, since trimming is idempotent). -/
theorem colFound_after (name : String) (cols : List String) (H0 : List String)
    (rows : List Row) (c : String)
    (hself : strIncludes (jsToLower (jsTrim c)) (firstWord (jsToLower c)) = true)
    (hcase : c ∈ cols ∨ colFound (H0.map jsToLower) c = true)
    (htrim : ∀ x ∈ H0, jsTrim x = x) :
    colFound (((addMissingCols name cols (H0, rows)).1.map jsTrim).map jsToLower) c
      = true := by
  rw [colFound, List.any_eq_true]
  rcases hcase with hcase | hcase
  · have hin : c ∈ (addMissingCols name cols (H0, rows)).1 :=
      addMissingCols_mem_inserted name cols _ c hcase
    refine ⟨jsToLower (jsTrim c), ?_, ?_⟩
    · exact List.mem_map_of_mem _ (List.mem_map_of_mem _ hin)
    · rw [hself]
      simp
  · rw [colFound, List.any_eq_true] at hcase
    obtain ⟨el, helmem, hpred⟩ := hcase
    obtain ⟨x, hx, rfl⟩ := List.mem_map.mp helmem
    refine ⟨jsToLower x, ?_, hpred⟩
    have hin : x ∈ (addMissingCols name cols (H0, rows)).1 :=
      addMissingCols_mem_of_mem name cols _ x hx
    have h3 := List.mem_map_of_mem jsTrim hin
    rw [htrim x hx] at h3
    exact List.mem_map_of_mem jsToLower h3

/-- After one reconciliation pass over a sheet, a second pass reports nothing
missing.  The `hself` hypothesis holds for all four manifests by computation. -/
theorem reconcileSheet_clean (name : String) (req : List String) (g : Grid)
    (hself : ∀ c ∈ req, strIncludes (jsToLower (jsTrim c)) (firstWord (jsToLower c)) = true) :
    (reconcileSheet name req ((reconcileSheet name req g).1)).2.missingColumns = [] := by
  by_cases hm : req.filter (fun c => ! colFound
      ((((g.headD []).map (fun c => jsTrim (cellToStr c))).map jsToLower)) c) = []
  · have h1 : (reconcileSheet name req g).1 = g := by
      simp only [reconcileSheet]
      rw [if_pos hm]
    rw [h1]
    simp only [reconcileSheet]
    rw [if_pos hm]
    exact hm
  · have h1 : (reconcileSheet name req g).1 =
        ((addMissingCols name
          (req.filter (fun c => ! colFound
            ((((g.headD []).map (fun c => jsTrim (cellToStr c))).map jsToLower)) c))
          ((g.headD []).map (fun c => jsTrim (cellToStr c)), g.tail)).1.map Cell.str) ::
        (addMissingCols name
          (req.filter (fun c => ! colFound
            ((((g.headD []).map (fun c => jsTrim (cellToStr c))).map jsToLower)) c))
          ((g.headD []).map (fun c => jsTrim (cellToStr c)), g.tail)).2 := by
      simp only [reconcileSheet]
      rw [if_neg hm]
    rw [h1]
    simp only [reconcileSheet, List.headD_cons]
    rw [map_trim_str]
    have hnil : req.filter (fun c => ! colFound
        ((((addMissingCols name
          (req.filter (fun c => ! colFound
            ((((g.headD []).map (fun c => jsTrim (cellToStr c))).map jsToLower)) c))
          ((g.headD []).map (fun c => jsTrim (cellToStr c)), g.tail)).1.map jsTrim).map
            jsToLower)) c) = [] := by
      rw [List.filter_eq_nil_iff]
      intro c hc hcontra
      rw [Bool.not_eq_eq_eq_not, Bool.not_true] at hcontra
      have hside1 : c ∈ req.filter (fun c => ! colFound
          ((((g.headD []).map (fun c => jsTrim (cellToStr c))).map jsToLower)) c) ∨
          colFound ((((g.headD []).map (fun c => jsTrim (cellToStr c))).map jsToLower)) c
            = true := by
        by_cases hf : colFound
            ((((g.headD []).map (fun c => jsTrim (cellToStr c))).map jsToLower)) c = true
        · exact .inr hf
        · refine .inl (List.mem_filter.mpr ⟨hc, ?_⟩)
          cases hb : colFound
              ((((g.headD []).map (fun c => jsTrim (cellToStr c))).map jsToLower)) c with
          | false => rfl
          | true => exact absurd hb hf
      have hside2 : ∀ x ∈ (g.headD []).map (fun c => jsTrim (cellToStr c)),
          jsTrim x = x := by
        intro x hx
        obtain ⟨cell, _, rfl⟩ := List.mem_map.mp hx
        exact jsTrim_idem _
      have hfound := colFound_after name
        (req.filter (fun c => ! colFound
          ((((g.headD []).map (fun c => jsTrim (cellToStr c))).map jsToLower)) c))
        ((g.headD []).map (fun c => jsTrim (cellToStr c))) g.tail c (hself c hc)
        hside1 hside2
      rw [hfound] at hcontra
      cases hcontra
    rw [if_pos hnil]
    exact hnil

/-! ## Claim C5: workbook update lemmas -/

theorem setWb_map_fst (wb : Workbook) (k : String) (g : Grid)
    (hk : k ∈ wb.map (fun p => p.1)) :
    (setWb wb k g).map (fun p => p.1) = wb.map (fun p => p.1) := by
  induction wb with
  | nil => cases hk
  | cons p rest ih =>
    obtain ⟨k0, g0⟩ := p
    by_cases h : k0 = k
    · subst h
      simp [setWb]
    · simp only [setWb, if_neg h, List.map_cons]
      have hk2 : k ∈ rest.map (fun p => p.1) := by
        rcases List.mem_cons.mp hk with h2 | h2
        · exact absurd h2.symm h
        · exact h2
      rw [ih hk2]

theorem lookupKey_setWb_self (wb : Workbook) (k : String) (g : Grid) :
    lookupKey (setWb wb k g) k = some g := by
  induction wb with
  | nil => simp [setWb, lookupKey, List.find?]
  | cons p rest ih =>
    obtain ⟨k0, g0⟩ := p
    by_cases h : k0 = k
    · subst h
      simp [setWb, lookupKey, List.find?]
    · simp only [setWb, if_neg h, lookupKey, List.find?]
      simp only [lookupKey] at ih
      simpa [h] using ih

theorem lookupKey_setWb_ne (wb : Workbook) (k k' : String) (g : Grid) (h : ¬ k' = k) :
    lookupKey (setWb wb k g) k' = lookupKey wb k' := by
  have h2 : ¬ k = k' := fun he => h he.symm
  induction wb with
  | nil => simp [setWb, lookupKey, List.find?, h2]
  | cons p rest ih =>
    obtain ⟨k0, g0⟩ := p
    by_cases h0 : k0 = k
    · subst h0
      simp [setWb, lookupKey, List.find?, h2]
    · simp only [setWb, if_neg h0, lookupKey, List.find?]
      simp only [lookupKey] at ih
      by_cases h1 : k0 = k'
      · simp [h1]
      · simpa [h1] using ih

theorem findWorksheetKey_spec (wb : Workbook) (n k : String)
    (h : findWorksheetKey wb n = some k) :
    k ∈ wb.map (fun p => p.1) ∧ jsToLower k = jsToLower n := by
  unfold findWorksheetKey at h
  refine ⟨List.mem_of_find?_eq_some h, ?_⟩
  have h2 := List.find?_some h
  simpa using h2

theorem findWorksheetKey_congr (a b : Workbook) (n : String)
    (h : a.map (fun p => p.1) = b.map (fun p => p.1)) :
    findWorksheetKey a n = findWorksheetKey b n := by
  unfold findWorksheetKey
  rw [h]

theorem lookupKey_of_mem (wb : Workbook) (k : String)
    (hk : k ∈ wb.map (fun p => p.1)) : ∃ g, lookupKey wb k = some g := by
  induction wb with
  | nil => cases hk
  | cons p rest ih =>
    obtain ⟨k0, g0⟩ := p
    by_cases h : k0 = k
    · exact ⟨g0, by simp [lookupKey, List.find?, h]⟩
    · have hk2 : k ∈ rest.map (fun p => p.1) := by
        rcases List.mem_cons.mp hk with h2 | h2
        · exact absurd h2.symm h
        · exact h2
      obtain ⟨g, hg⟩ := ih hk2
      refine ⟨g, ?_⟩
      simp only [lookupKey, List.find?] at hg ⊢
      simpa [h] using hg

/-! ## Claim C5: single-step characterization -/

theorem vamcStep_map_fst (wb : Workbook) (acc : Workbook × List ColumnValidationResult)
    (e : String × List String)
    (hacc : acc.1.map (fun p => p.1) = wb.map (fun p => p.1)) :
    (vamcStep wb acc e).1.map (fun p => p.1) = wb.map (fun p => p.1) := by
  cases hf : findWorksheetKey wb e.1 with
  | none =>
    simp only [vamcStep, hf]
    exact hacc
  | some k =>
    simp only [vamcStep, hf]
    by_cases hz : ((lookupKey wb k).getD []).length = 0
    · rw [if_pos hz]
      exact hacc
    · rw [if_neg hz]
      by_cases hmiss : (reconcileSheet e.1 e.2 ((lookupKey wb k).getD [])).2.missingColumns
          = []
      · simp only [if_pos hmiss]
        exact hacc
      · simp only [if_neg hmiss]
        rw [setWb_map_fst _ _ _ (by rw [hacc]; exact (findWorksheetKey_spec wb e.1 k hf).1)]
        exact hacc

theorem vamcStep_lookup_other (wb : Workbook) (acc : Workbook × List ColumnValidationResult)
    (e : String × List String) (k' : String)
    (h : ¬ findWorksheetKey wb e.1 = some k') :
    lookupKey (vamcStep wb acc e).1 k' = lookupKey acc.1 k' := by
  cases hf : findWorksheetKey wb e.1 with
  | none => simp only [vamcStep, hf]
  | some k =>
    simp only [vamcStep, hf]
    have hk : ¬ k' = k := fun he => h (by rw [← he] at hf; exact hf)
    by_cases hz : ((lookupKey wb k).getD []).length = 0
    · rw [if_pos hz]
    · rw [if_neg hz]
      by_cases hmiss : (reconcileSheet e.1 e.2 ((lookupKey wb k).getD [])).2.missingColumns
          = []
      · simp only [if_pos hmiss]
      · simp only [if_neg hmiss]
        exact lookupKey_setWb_ne acc.1 k k' _ hk

/-- `reconcileSheet` leaves the grid unchanged in its nothing-missing branch. -/
theorem reconcileSheet_fst_of_missing_nil (name : String) (req : List String) (g : Grid)
    (h : (reconcileSheet name req g).2.missingColumns = []) :
    (reconcileSheet name req g).1 = g := by
  by_cases hm : req.filter (fun c => ! colFound
      ((((g.headD []).map (fun c => jsTrim (cellToStr c))).map jsToLower)) c) = []
  · simp only [reconcileSheet]
    rw [if_pos hm]
  · simp only [reconcileSheet] at h
    rw [if_neg hm] at h
    exact absurd h hm

theorem vamcStep_lookup_self (wb : Workbook) (acc : Workbook × List ColumnValidationResult)
    (e : String × List String) (k : String) (g : Grid)
    (hf : findWorksheetKey wb e.1 = some k) (hw : lookupKey wb k = some g)
    (hacc : lookupKey acc.1 k = some g) :
    lookupKey (vamcStep wb acc e).1 k =
      some (if g.length = 0 then g else (reconcileSheet e.1 e.2 g).1) := by
  simp only [vamcStep, hf, hw, Option.getD_some]
  by_cases hz : g.length = 0
  · rw [if_pos hz, if_pos hz]
    exact hacc
  · rw [if_neg hz, if_neg hz]
    by_cases hmiss : (reconcileSheet e.1 e.2 g).2.missingColumns = []
    · simp only [if_pos hmiss]
      rw [hacc, reconcileSheet_fst_of_missing_nil _ _ _ hmiss]
    · simp only [if_neg hmiss]
      exact lookupKey_setWb_self acc.1 k _

theorem vamcStep_clean (wb : Workbook) (acc : Workbook × List ColumnValidationResult)
    (e : String × List String)
    (h : ∀ k g, findWorksheetKey wb e.1 = some k → lookupKey wb k = some g →
      ¬ g.length = 0 → (reconcileSheet e.1 e.2 g).2.missingColumns = []) :
    (vamcStep wb acc e).1 = acc.1 ∧
    ∀ v ∈ (vamcStep wb acc e).2,
      v ∈ acc.2 ∨ (v.missingColumns = [] ∧ v.addedColumns = []) := by
  cases hf : findWorksheetKey wb e.1 with
  | none =>
    have hgoal : vamcStep wb acc e = acc := by simp [vamcStep, hf]
    rw [hgoal]
    exact ⟨rfl, fun v hv => .inl hv⟩
  | some k =>
    cases hl : lookupKey wb k with
    | none =>
      have hgoal : vamcStep wb acc e = acc := by simp [vamcStep, hf, hl]
      rw [hgoal]
      exact ⟨rfl, fun v hv => .inl hv⟩
    | some g =>
      simp only [vamcStep, hf, hl, Option.getD_some]
      by_cases hz : g.length = 0
      · rw [if_pos hz]
        exact ⟨rfl, fun v hv => .inl hv⟩
      · rw [if_neg hz]
        have hmiss := h k g hf hl hz
        have hadd : (reconcileSheet e.1 e.2 g).2.addedColumns = [] := by
          by_cases hm : e.2.filter (fun c => ! colFound
              ((((g.headD []).map (fun c => jsTrim (cellToStr c))).map jsToLower)) c) = []
          · simp only [reconcileSheet]
            rw [if_pos hm]
          · simp only [reconcileSheet] at hmiss
            rw [if_neg hm] at hmiss
            exact absurd hmiss hm
        constructor
        · simp only [if_pos hmiss]
        · intro v hv
          simp only at hv
          rcases List.mem_append.mp hv with hv | hv
          · exact .inl hv
          · rcases List.mem_cons.mp hv with hv | hv
            · subst hv
              exact .inr ⟨hmiss, hadd⟩
            · cases hv

/-! ## Claim C5: the sheet loop -/

theorem vamcFold_untouched (wb : Workbook) :
    ∀ (entries : List (String × List String))
      (acc : Workbook × List ColumnValidationResult) (k' : String),
      (∀ e ∈ entries, ¬ findWorksheetKey wb e.1 = some k') →
      lookupKey (entries.foldl (vamcStep wb) acc).1 k' = lookupKey acc.1 k' := by
  intro entries
  induction entries with
  | nil => intro acc k' _; rfl
  | cons e0 rest ih =>
    intro acc k' h
    rw [List.foldl_cons]
    rw [ih _ k' (fun e he => h e (List.mem_cons_of_mem e0 he))]
    exact vamcStep_lookup_other wb acc e0 k' (h e0 (List.mem_cons_self e0 rest))

theorem vamcFold_map_fst (wb : Workbook) :
    ∀ (entries : List (String × List String))
      (acc : Workbook × List ColumnValidationResult),
      acc.1.map (fun p => p.1) = wb.map (fun p => p.1) →
      ((entries.foldl (vamcStep wb) acc).1.map (fun p => p.1)) =
        wb.map (fun p => p.1) := by
  intro entries
  induction entries with
  | nil => intro acc h; exact h
  | cons e0 rest ih =>
    intro acc h
    rw [List.foldl_cons]
    exact ih _ (vamcStep_map_fst wb acc e0 h)

theorem vamcFold_lookup_self (wb : Workbook) :
    ∀ (entries : List (String × List String))
      (acc : Workbook × List ColumnValidationResult)
      (e : String × List String) (k : String) (g : Grid),
      e ∈ entries →
      (entries.map (fun p => jsToLower p.1)).Nodup →
      findWorksheetKey wb e.1 = some k →
      lookupKey wb k = some g →
      lookupKey acc.1 k = some g →
      lookupKey ((entries.foldl (vamcStep wb) acc).1) k =
        some (if g.length = 0 then g else (reconcileSheet e.1 e.2 g).1) := by
  intro entries
  induction entries with
  | nil => intro acc e k g hmem; cases hmem
  | cons e0 rest ih =>
    intro acc e k g hmem hnd hf hw hacc
    rw [List.foldl_cons]
    obtain ⟨hnotin, hndrest⟩ := List.nodup_cons.mp hnd
    rcases List.mem_cons.mp hmem with he | he
    · subst he
      rw [vamcFold_untouched wb rest _ k ?_]
      · exact vamcStep_lookup_self wb acc e k g hf hw hacc
      · intro e' he' hfe'
        have h1 := (findWorksheetKey_spec wb e'.1 k hfe').2
        have h2 := (findWorksheetKey_spec wb e.1 k hf).2
        refine hnotin ?_
        have hmm := List.mem_map_of_mem (fun p => jsToLower p.1) he'
        simpa [h1.symm.trans h2] using hmm
    · refine ih _ e k g he hndrest hf hw ?_
      rw [vamcStep_lookup_other wb acc e0 k ?_]
      · exact hacc
      · intro hfe0
        have h1 := (findWorksheetKey_spec wb e0.1 k hfe0).2
        have h2 := (findWorksheetKey_spec wb e.1 k hf).2
        refine hnotin ?_
        have hmm := List.mem_map_of_mem (fun p => jsToLower p.1) he
        simpa [h1.symm.trans h2] using hmm

theorem vamcFold_clean (wb : Workbook) :
    ∀ (entries : List (String × List String)),
      (∀ e ∈ entries, ∀ k g, findWorksheetKey wb e.1 = some k →
        lookupKey wb k = some g → ¬ g.length = 0 →
        (reconcileSheet e.1 e.2 g).2.missingColumns = []) →
      ∀ acc, (entries.foldl (vamcStep wb) acc).1 = acc.1 ∧
        ∀ v ∈ (entries.foldl (vamcStep wb) acc).2,
          v ∈ acc.2 ∨ (v.missingColumns = [] ∧ v.addedColumns = []) := by
  intro entries
  induction entries with
  | nil => intro _ acc; exact ⟨rfl, fun v hv => .inl hv⟩
  | cons e0 rest ih =>
    intro h acc
    rw [List.foldl_cons]
    have hstep := vamcStep_clean wb acc e0 (h e0 (List.mem_cons_self e0 rest))
    have hrest := ih (fun e he => h e (List.mem_cons_of_mem e0 he)) (vamcStep wb acc e0)
    refine ⟨hrest.1.trans hstep.1, ?_⟩
    intro v hv
    rcases hrest.2 v hv with hv2 | hv2
    · rcases hstep.2 v hv2 with hv3 | hv3
      · exact .inl hv3
      · exact .inr hv3
    · exact .inr hv2

/-- C5: column-schema reconciliation is idempotent.  Re-running
`validateAndAddMissingColumns` on the workbook produced by a first run leaves
every grid unchanged, and on the second run no worksheet reports any missing
or added column. -/
theorem c5_reconcile_idempotent (wb : Workbook) :
    (validateAndAddMissingColumns (validateAndAddMissingColumns wb).1).1 =
      (validateAndAddMissingColumns wb).1 ∧
    ∀ v ∈ (validateAndAddMissingColumns (validateAndAddMissingColumns wb).1).2,
      v.missingColumns = [] ∧ v.addedColumns = [] := by
  have hselfAll : ∀ e ∈ requiredColumnsList, ∀ c ∈ e.2,
      strIncludes (jsToLower (jsTrim c)) (firstWord (jsToLower c)) = true := by decide
  have hnd : (requiredColumnsList.map (fun p => jsToLower p.1)).Nodup := by decide
  have hm1 : (validateAndAddMissingColumns wb).1.map (fun p => p.1) =
      wb.map (fun p => p.1) :=
    vamcFold_map_fst wb requiredColumnsList (wb, []) rfl
  have hclean : ∀ e ∈ requiredColumnsList, ∀ k g,
      findWorksheetKey (validateAndAddMissingColumns wb).1 e.1 = some k →
      lookupKey (validateAndAddMissingColumns wb).1 k = some g →
      ¬ g.length = 0 →
      (reconcileSheet e.1 e.2 g).2.missingColumns = [] := by
    intro e he k g hf1 hl1 hz
    have hf : findWorksheetKey wb e.1 = some k := by
      rw [← findWorksheetKey_congr ((validateAndAddMissingColumns wb).1) wb e.1 hm1]
      exact hf1
    obtain ⟨g0, hg0⟩ := lookupKey_of_mem wb k (findWorksheetKey_spec wb e.1 k hf).1
    have hl2 : lookupKey (validateAndAddMissingColumns wb).1 k =
        some (if g0.length = 0 then g0 else (reconcileSheet e.1 e.2 g0).1) :=
      vamcFold_lookup_self wb requiredColumnsList (wb, []) e k g0 he hnd hf hg0 hg0
    rw [hl2] at hl1
    injection hl1 with hl1
    by_cases hz0 : g0.length = 0
    · rw [if_pos hz0] at hl1
      subst hl1
      exact absurd hz0 hz
    · rw [if_neg hz0] at hl1
      subst hl1
      exact reconcileSheet_clean e.1 e.2 g0 (hselfAll e he)
  have h2 := vamcFold_clean (validateAndAddMissingColumns wb).1 requiredColumnsList
    hclean ((validateAndAddMissingColumns wb).1, [])
  refine ⟨h2.1, ?_⟩
  intro v hv
  rcases h2.2 v hv with hv2 | hv2
  · cases hv2
  · exact hv2

end ExcelProcessor
